import Mathlib

/-!
# RISC-V privileged-architecture demos: a shallow embedding

The repository is six independent C programs, each a thin driver around one
or two inline-assembly instructions (`rdcycle`, `csrr mstatus`, `ecall`).
Their behaviour is a sequence of interactions with the hardware and the
supervisor, so the embedding is explicit state passing over a process state
with the execution environment as a parameter:

* registers `a0 a1 a2 a7` are 64-bit words, kept as `Nat` reduced mod `2^64`;
* the supervisor's answer to a trap, the cycle counter, the privilege of the
  execution context and the stdio buffering policy come from an `Env`;
* every instruction and library call a program executes is appended to
  `State.trace`, the bytes the operating environment has put on standard
  output are in `State.world`;
* loops take fuel; running out of fuel is the result `Halt.outOfFuel`.
-/

namespace RiscvDemos

/-! ## Machine integers -/

/-- Two's-complement encoding of a C `long` in a 64-bit register. -/
def toWord (z : Int) : Nat := (z % (2 ^ 64 : Int)).toNat

/-- Signed reading of a 64-bit register as a C `long`. -/
def toLong (w : Nat) : Int :=
  if w % 2 ^ 64 < 2 ^ 63 then ((w % 2 ^ 64 : Nat) : Int)
  else ((w % 2 ^ 64 : Nat) : Int) - (2 ^ 64 : Int)

/-- Subtraction of `uint64_t` values: `a - b` reduced mod `2^64`. -/
def sub64 (a b : Nat) : Nat := (a % 2 ^ 64 + 2 ^ 64 - b % 2 ^ 64) % 2 ^ 64

/-- Reduction of an integer to the range of a C `int` (32-bit two's complement). -/
def wrapInt (z : Int) : Int := (z + 2 ^ 31) % (2 ^ 32 : Int) - 2 ^ 31

/-- The values of the C type `int`. -/
def IsInt (z : Int) : Prop := -(2 ^ 31 : Int) ≤ z ∧ z < (2 ^ 31 : Int)

instance (z : Int) : Decidable (IsInt z) := by unfold IsInt; infer_instance

/-! ## Process state and execution environment -/

/-- The registers of the supervisor-call convention. -/
structure Regs where
  a0 : Nat
  a1 : Nat
  a2 : Nat
  a7 : Nat
deriving DecidableEq, Repr

/-- Names of the registers in `Regs`. -/
inductive Reg where
  | a0 | a1 | a2 | a7
deriving DecidableEq, Repr

/-- Register write. -/
def Regs.set (r : Regs) : Reg → Nat → Regs
  | .a0, v => { r with a0 := v }
  | .a1, v => { r with a1 := v }
  | .a2, v => { r with a2 := v }
  | .a7, v => { r with a7 := v }

/-- What a program does that is visible from outside, in program order. -/
inductive Event where
  /-- the trap instruction, with the register file at the moment of the trap -/
  | ecall (r : Regs)
  /-- a read of the cycle counter and the value read -/
  | rdcycle (v : Nat)
  /-- a read of `mstatus`: the value read, or `none` when the read faulted -/
  | csrr_mstatus (v : Option Nat)
  /-- a call of the C library's `printf` and the text it formats -/
  | printf (text : List Char)
deriving DecidableEq, Repr

/-- Who put bytes on a stream: the program's own trap, or the C library. -/
inductive Source where
  | raw | libc
deriving DecidableEq, Repr

/-- A run of bytes delivered to standard output in one piece. -/
structure Chunk where
  src : Source
  bytes : List Char
deriving DecidableEq, Repr

/-- The part of the operating environment the programs can change:
what has been delivered to standard output (fd 1), oldest first. -/
structure World where
  stdout : List Chunk
deriving DecidableEq, Repr

/-- The supervisor's answer to a trap. -/
inductive Trap where
  /-- the service returns: value left in the return register `a0`, new world -/
  | resume (a0 : Nat) (w : World)
  /-- the service ends the process with a status -/
  | terminate (status : Int) (w : World)
  /-- control never comes back and the process is not ended -/
  | hang (w : World)

/-- Buffering policy of the C library for standard output. -/
inductive BufMode where
  /-- flushed at each newline -/
  | lineBuffered
  /-- flushed only at normal exit -/
  | fullyBuffered
deriving DecidableEq, Repr

/-- The execution environment. -/
structure Env where
  /-- the supervisor: registers at the trap, memory, world -/
  trap : Regs → (Nat → Char) → World → Trap
  /-- the free-running cycle count (not reduced) at program point `k` -/
  cycles : Nat → Nat
  /-- the value of `mstatus` when the context may read it, `none` when the read faults -/
  mstatus : Option Nat
  /-- the stdio policy of standard output -/
  bufMode : BufMode

/-- The state of a running process. -/
structure State where
  regs : Regs
  mem : Nat → Char
  /-- program point: number of modelled operations executed so far -/
  time : Nat
  /-- bytes accepted by `printf` and not yet handed to the operating environment -/
  buf : List Char
  world : World
  trace : List Event

/-- Why a run stopped without returning. -/
inductive Halt where
  /-- the supervisor ended the process inside a trap, with this status -/
  | exited (status : Int)
  /-- an instruction faulted and the environment killed the process -/
  | trapped
  /-- a trap never returned -/
  | hung
  /-- the fuel of a loop ran out: the program was still running -/
  | outOfFuel
deriving DecidableEq, Repr

/-- Result of running a piece of program. -/
inductive Res (α : Type) where
  | ok (a : α) (s : State)
  | halt (h : Halt) (s : State)

/-- A piece of program. -/
def Run (α : Type) : Type := State → Res α

/-- Return a value without touching the state. -/
def Run.pure {α : Type} (a : α) : Run α := fun s => Res.ok a s

/-- Sequencing: the second part runs only when the first returned. -/
def Run.bind {α β : Type} (m : Run α) (f : α → Run β) : Run β := fun s =>
  match m s with
  | Res.ok a s1 => f a s1
  | Res.halt h s1 => Res.halt h s1

instance : Monad Run where
  pure := Run.pure
  bind := Run.bind

/-- The final state of a result. -/
def Res.state {α : Type} : Res α → State
  | Res.ok _ s => s
  | Res.halt _ s => s

/-- The value a result returned, if it returned. -/
def Res.value {α : Type} : Res α → Option α
  | Res.ok a _ => some a
  | Res.halt _ _ => none

/-- One modelled operation has been executed. -/
def tick (s : State) : State := { s with time := s.time + 1 }

/-! ## Instructions -/

/-- Load a 64-bit value into a register. -/
def li (reg : Reg) (v : Nat) : Run Unit := fun s =>
  Res.ok () (tick { s with regs := s.regs.set reg (v % 2 ^ 64) })

/-- The `ecall` instruction. -/
def Insn.ecall (env : Env) : Run Unit := fun s =>
  let s1 := tick { s with trace := s.trace ++ [Event.ecall s.regs] }
  match env.trap s.regs s.mem s.world with
  | Trap.resume v w =>
      Res.ok () { s1 with regs := s1.regs.set Reg.a0 (v % 2 ^ 64), world := w }
  | Trap.terminate st w => Res.halt (Halt.exited st) { s1 with world := w }
  | Trap.hang w => Res.halt Halt.hung { s1 with world := w }

/-- The `rdcycle rd` instruction: the low 64 bits of the cycle count. -/
def Insn.rdcycle (env : Env) : Run Nat := fun s =>
  let v := env.cycles s.time % 2 ^ 64
  Res.ok v (tick { s with trace := s.trace ++ [Event.rdcycle v] })

/-- The `csrr rd, mstatus` instruction. -/
def Insn.csrr_mstatus (env : Env) : Run Nat := fun s =>
  let s1 := tick { s with trace := s.trace ++ [Event.csrr_mstatus env.mstatus] }
  match env.mstatus with
  | some v => Res.ok (v % 2 ^ 64) s1
  | none => Res.halt Halt.trapped s1

/-- Initialise an array in memory at `addr`. -/
def storeBytes (addr : Nat) (bs : List Char) : Run Unit := fun s =>
  Res.ok () (tick { s with mem := fun a =>
    if addr ≤ a ∧ a < addr + bs.length then bs.getD (a - addr) (Char.ofNat 0) else s.mem a })

/-- The `n` bytes of memory from `addr` on. -/
def readBytes (mem : Nat → Char) (addr n : Nat) : List Char :=
  (List.range n).map fun i => mem (addr + i)

/-! ## The C library's buffered output -/

/-- The newline character. -/
def nl : Char := Char.ofNat 10

/-- The tail of the buffer after its last newline. -/
def pending (bs : List Char) : List Char :=
  (bs.reverse.takeWhile fun c => c != nl).reverse

/-- The buffer up to and including its last newline. -/
def complete (bs : List Char) : List Char :=
  bs.take (bs.length - (pending bs).length)

/-- Hand bytes to standard output. -/
def deliver (src : Source) (bs : List Char) (w : World) : World :=
  if bs = [] then w else { stdout := w.stdout ++ [{ src := src, bytes := bs }] }

/-- State after `printf` of an already formatted text. -/
def printfState (env : Env) (text : List Char) (s : State) : State :=
  let s1 := tick { s with trace := s.trace ++ [Event.printf text] }
  match env.bufMode with
  | BufMode.lineBuffered =>
      { s1 with buf := pending (s.buf ++ text),
                world := deliver Source.libc (complete (s.buf ++ text)) s.world }
  | BufMode.fullyBuffered => { s1 with buf := s.buf ++ text }

/-- The library call `printf`, with the text already formatted. -/
def printf (env : Env) (text : List Char) : Run Unit := fun s =>
  Res.ok () (printfState env text s)

/-- Conversion `%lu`. -/
def fmtU (n : Nat) : List Char := (Nat.repr n).toList

/-- Conversion `%ld`. -/
def fmtD (z : Int) : List Char :=
  match z with
  | Int.ofNat n => (Nat.repr n).toList
  | Int.negSucc n => '-' :: (Nat.repr (n + 1)).toList

/-- The bytes on standard output, in order. -/
def World.bytes (w : World) : List Char := (w.stdout.map Chunk.bytes).flatten

/-- How a process ended. -/
inductive Termination where
  /-- the process ended with an exit status -/
  | normal (status : Int)
  /-- the process was killed by a fault -/
  | abnormal
  /-- the process never ended (as far as the fuel reached) -/
  | running
deriving DecidableEq, Repr

/-- What the outside sees of a finished process. -/
structure Final where
  term : Termination
  out : World
deriving DecidableEq, Repr

/-- The C runtime around `main`: a return from `main` flushes the stdio buffer
and exits with the returned value; a process ended inside a trap or by a fault
loses what is still in the buffer. -/
def finish : Res Int → Final
  | Res.ok code s => { term := Termination.normal code, out := deliver Source.libc s.buf s.world }
  | Res.halt (Halt.exited st) s => { term := Termination.normal st, out := s.world }
  | Res.halt Halt.trapped s => { term := Termination.abnormal, out := s.world }
  | Res.halt Halt.hung s => { term := Termination.running, out := s.world }
  | Res.halt Halt.outOfFuel s => { term := Termination.running, out := s.world }

/-- The loop `for (volatile int i=0; i<1000; i++);` of `csr_cycles.c` and
`mstatus.c`, entered with the current `i`. The second number counts the
executions of `i++`; it is not a program variable. -/
def busyLoop : Nat → Int → Nat → Run (Int × Nat)
  | 0, _, _ => fun s => Res.halt Halt.outOfFuel s
  | fuel + 1, i, n => fun s =>
      if i < 1000 then busyLoop fuel (wrapInt (i + 1)) (n + 1) (tick (tick s))
      else Res.ok (i, n) (tick s)

/-! ## `01. CSR/csr_cycles.c` -/

namespace CsrCycles

/-- Function `rdcycle` of `csr_cycles.c`. -/
def rdcycle (env : Env) : Run Nat := Insn.rdcycle env

/-- Function `main` of `csr_cycles.c`. -/
def main (env : Env) (fuel : Nat) : Run Int := do
  let startCount ← rdcycle env
  let _ ← busyLoop fuel 0 0
  let endCount ← rdcycle env
  let workCount := sub64 endCount startCount
  printf env ("Start Cycle: ".toList ++ fmtU startCount ++ "\n".toList)
  printf env ("End Cycle: ".toList ++ fmtU endCount ++ "\n".toList)
  printf env ("Elapsed: ".toList ++ fmtU workCount ++ "\n".toList)
  pure 0

end CsrCycles

/-! ## `01. CSR/mstatus.c` -/

namespace Mstatus

/-- Function `read_mstatus` of `mstatus.c`. -/
def read_mstatus (env : Env) : Run Nat := Insn.csrr_mstatus env

/-- Function `main` of `mstatus.c`. -/
def main (env : Env) (fuel : Nat) : Run Int := do
  let startStts ← read_mstatus env
  printf env ("Start Status: ".toList ++ fmtU startStts ++ "\n".toList)
  let _ ← busyLoop fuel 0 0
  let endStts ← read_mstatus env
  printf env ("End Status: ".toList ++ fmtU endStts ++ "\n".toList)
  pure 0

end Mstatus

/-! ## `02. Traps & Interrupts/ecall_exit.c` -/

namespace EcallExit

/-- Function `my_exit` of `ecall_exit.c`. -/
def my_exit (env : Env) (code : Int) : Run Unit := do
  li Reg.a7 93
  li Reg.a0 (toWord code)
  Insn.ecall env

/-- Function `main` of `ecall_exit.c`. -/
def main (env : Env) : Run Int := do
  printf env "About to trigger ecall...\n".toList
  my_exit env 0
  printf env "Never reaches here\n".toList
  pure 0

end EcallExit

/-! ## `02. Traps & Interrupts/ecall_write.c` -/

namespace EcallWrite

/-- Function `my_write` of `ecall_write.c`; `buff` is an address. -/
def my_write (env : Env) (fd : Int) (buff : Nat) (count : Nat) : Run Unit := do
  li Reg.a0 (toWord fd)
  li Reg.a1 buff
  li Reg.a2 count
  li Reg.a7 64
  Insn.ecall env

/-- The array `msg` of `main`: the characters of the literal and the terminating NUL. -/
def msg : List Char := "Hello from raw ecall!\n".toList ++ [Char.ofNat 0]

/-- Function `main` of `ecall_write.c`; `msgAddr` is the address the compiler
gave the local array `msg`, and `sizeof(msg)` is the length of the array. -/
def main (env : Env) (msgAddr : Nat) : Run Int := do
  printf env "About to trigger ecall...\n".toList
  storeBytes msgAddr msg
  my_write env 1 msgAddr (msg.length - 1)
  printf env "That's it RISC-V.\n".toList
  pure 0

end EcallWrite

/-! ## `03. Measuring Cycle Count/ctx_switch.c` -/

namespace CtxSwitch

/-- Function `rdcycle` of `ctx_switch.c`. -/
def rdcycle (env : Env) : Run Nat := Insn.rdcycle env

/-- Function `my_getpid` of `ctx_switch.c`. -/
def my_getpid (env : Env) : Run Int := do
  li Reg.a7 172
  Insn.ecall env
  fun s => Res.ok (toLong s.regs.a0) s

/-- Function `main` of `ctx_switch.c`. -/
def main (env : Env) : Run Int := do
  let _ ← my_getpid env
  let start ← rdcycle env
  let pid ← my_getpid env
  let end_ ← rdcycle env
  let cycles := sub64 end_ start
  printf env ("PID: ".toList ++ fmtD pid ++ "\n".toList)
  printf env ("Trap + return cycles: ".toList ++ fmtU cycles ++ "\n".toList)
  pure 0

end CtxSwitch

/-! ## `03. Custom Traps/main.c` -/

namespace CustomTraps

/-- Function `trigger_ecall` of `main.c`. -/
def trigger_ecall (env : Env) : Run Unit := Insn.ecall env

/-- Function `_exit` of `main.c`: `while(1);`. -/
def _exit (code : Int) : Nat → Run Unit
  | 0 => fun s => Res.halt Halt.outOfFuel s
  | fuel + 1 => fun s => if (1 : Int) ≠ 0 then _exit code fuel (tick s) else Res.ok () s

/-- Function `main` of `main.c`. -/
def main (env : Env) (fuel : Nat) : Run Int := do
  trigger_ecall env
  _exit 0 fuel
  pure 0

end CustomTraps

/-- A user-mode environment of the kind the demos are run under (a proxy
kernel): service 93 ends the process with the status in `a0`, service 64
delivers `a2` bytes from address `a1` to fd 1 at once and returns the count,
service 172 returns `pid`, any other service number is refused; the cycle
counter advances by one per program point and `mstatus` is out of reach. -/
def proxyKernel (mode : BufMode) (pid : Nat) : Env :=
  { trap := fun r mem w =>
      if r.a7 = 93 then Trap.terminate (toLong r.a0) w
      else if r.a7 = 64 then
        (if r.a0 = 1 then Trap.resume r.a2 (deliver Source.raw (readBytes mem r.a1 r.a2) w)
         else Trap.resume (toWord (-9)) w)
      else if r.a7 = 172 then Trap.resume pid w
      else Trap.resume (toWord (-38)) w,
    cycles := fun k => k,
    mstatus := none,
    bufMode := mode }

/-- The proxy kernel with standard output closed: service 64 delivers nothing
and returns the error code -9. -/
def closedStdoutKernel (mode : BufMode) (pid : Nat) : Env :=
  { proxyKernel mode pid with trap := fun r mem w =>
      if r.a7 = 64 then Trap.resume (toWord (-9)) w else (proxyKernel mode pid).trap r mem w }

/-- All four registers zero. -/
def zeroRegs : Regs := { a0 := 0, a1 := 0, a2 := 0, a7 := 0 }

/-- Memory filled with NUL. -/
def zeroMem : Nat → Char := fun _ => Char.ofNat 0

/-! ## The scenarios of the specification -/

/-- The five scenarios of the specification's system overview. -/
inductive Scenario where
  /-- 1: read the cycle counter twice around a busy loop -/
  | cycleCounterRead
  /-- 2: read a machine-mode-only register from user mode -/
  | privilegedRegisterRead
  /-- 3: invoke the process-exit service by a raw system call -/
  | trapExit
  /-- 4: invoke the write service by a raw system call -/
  | trapWrite
  /-- 5: read the cycle counter before and after a get-process-id call -/
  | roundTripTiming
deriving DecidableEq, Repr

/-- Whether an event is an interaction with the hardware or the supervisor
(everything but a library call). -/
def Event.isInteraction : Event → Bool
  | Event.printf _ => false
  | _ => true

/-- The hardware and supervisor interactions of a trace, in order. -/
def interactions (t : List Event) : List Event := t.filter Event.isInteraction

/-- Whether an event is a trap for service 172, get-process-id. -/
def Event.isGetpid : Event → Bool
  | Event.ecall r => decide (r.a7 = 172)
  | _ => false

/-- Whether an event is a read of `mstatus`. -/
def Event.isMstatusRead : Event → Bool
  | Event.csrr_mstatus _ => true
  | _ => false

/-- The specification's scenarios as shapes of interaction sequences, written
from its sections 2, 4 and 6 (service numbers 93, 64 and 172): two counter reads
and nothing else; reads of the privileged register and nothing else; one trap
for the terminate service; one trap for the write service; a counter read, a
get-process-id trap and a counter read, after any number of warm-up
get-process-id traps. -/
def Scenario.fits : Scenario → List Event → Bool
  | Scenario.cycleCounterRead, [Event.rdcycle _, Event.rdcycle _] => true
  | Scenario.privilegedRegisterRead, Event.csrr_mstatus _ :: rest =>
      rest.all Event.isMstatusRead
  | Scenario.trapExit, [Event.ecall r] => decide (r.a7 = 93)
  | Scenario.trapWrite, [Event.ecall r] => decide (r.a7 = 64)
  | Scenario.roundTripTiming, t =>
      match t.dropWhile Event.isGetpid with
      | [Event.rdcycle _, Event.ecall r, Event.rdcycle _] => decide (r.a7 = 172)
      | _ => false
  | _, _ => false

/-- A process at its start: nothing printed, nothing executed. -/
def boot (regs : Regs) (mem : Nat → Char) : State :=
  { regs := regs, mem := mem, time := 0, buf := [], world := { stdout := [] }, trace := [] }

/-! ## Intermediate states of the runs -/

/-- The state in which `my_exit` traps. -/
def EcallExit.atTrap (code : Int) (s : State) : State :=
  { s with regs := { a0 := toWord code, a1 := s.regs.a1, a2 := s.regs.a2, a7 := 93 },
           time := s.time + 2 }

/-- The state in which `my_write` traps. -/
def EcallWrite.atTrap (fd : Int) (buff count : Nat) (s : State) : State :=
  { s with regs := { a0 := toWord fd, a1 := buff % 2 ^ 64, a2 := count % 2 ^ 64, a7 := 64 },
           time := s.time + 4 }

/-- The state in which `my_getpid` traps. -/
def CtxSwitch.atTrap (s : State) : State :=
  { s with regs := { a0 := s.regs.a0, a1 := s.regs.a1, a2 := s.regs.a2, a7 := 172 },
           time := s.time + 1 }

/-- The state in which `main` of `ecall_write.c` traps. -/
def EcallWrite.beforeTrap (env : Env) (msgAddr : Nat) (s : State) : State :=
  EcallWrite.atTrap 1 msgAddr (EcallWrite.msg.length - 1)
    (storeBytes msgAddr EcallWrite.msg
      (printfState env "About to trigger ecall...\n".toList s)).state

/-- The state in which `my_getpid` returns, when its trap left `v` in `a0`. -/
def CtxSwitch.afterTrap (s : State) (v : Nat) (w : World) : State :=
  { s with regs := { a0 := v % 2 ^ 64, a1 := s.regs.a1, a2 := s.regs.a2, a7 := 172 },
           time := s.time + 2,
           trace := s.trace ++ [Event.ecall
             { a0 := s.regs.a0, a1 := s.regs.a1, a2 := s.regs.a2, a7 := 172 }],
           world := w }

/-- The state after a read of the cycle counter. -/
def CtxSwitch.afterRead (env : Env) (s : State) : State :=
  tick { s with trace := s.trace ++ [Event.rdcycle (env.cycles s.time % 2 ^ 64)] }

/-! ## Basic facts about the embedding -/

theorem run_bind {α β : Type} (m : Run α) (f : α → Run β) (s : State) :
    (m >>= f) s = match m s with
      | Res.ok a s1 => f a s1
      | Res.halt h s1 => Res.halt h s1 := rfl

theorem run_pure {α : Type} (a : α) (s : State) : (pure a : Run α) s = Res.ok a s := rfl

theorem li_bind {β : Type} (reg : Reg) (v : Nat) (f : Unit → Run β) (s : State) :
    (li reg v >>= f) s = f () (tick { s with regs := s.regs.set reg (v % 2 ^ 64) }) := rfl

theorem printf_bind {β : Type} (env : Env) (text : List Char) (f : Unit → Run β) (s : State) :
    (printf env text >>= f) s = f () (printfState env text s) := rfl

theorem ecall_trace (env : Env) (s : State) :
    (Insn.ecall env s).state.trace = s.trace ++ [Event.ecall s.regs] := by
  unfold Insn.ecall
  cases env.trap s.regs s.mem s.world <;> rfl

theorem toWord_lt (z : Int) : toWord z < 2 ^ 64 := by
  unfold toWord
  have h := Int.emod_lt_of_pos z (show (0 : Int) < 2 ^ 64 by norm_num)
  have h0 := Int.emod_nonneg z (show (2 ^ 64 : Int) ≠ 0 by norm_num)
  omega

theorem toLong_toWord (z : Int) (h : -(2 ^ 63 : Int) ≤ z ∧ z < (2 ^ 63 : Int)) :
    toLong (toWord z) = z := by
  unfold toLong toWord
  have h1 := Int.emod_lt_of_pos z (show (0 : Int) < 2 ^ 64 by norm_num)
  have h0 := Int.emod_nonneg z (show (2 ^ 64 : Int) ≠ 0 by norm_num)
  have hd := Int.emod_add_ediv z (2 ^ 64)
  split <;> omega

/-! ## The wrappers, reduced to their trap -/

theorem EcallExit.my_exit_eq (env : Env) (code : Int) (s : State) :
    EcallExit.my_exit env code s = Insn.ecall env (EcallExit.atTrap code s) := by
  have h := Nat.mod_eq_of_lt (toWord_lt code)
  simp only [EcallExit.my_exit, li_bind, EcallExit.atTrap, tick, Regs.set, h]
  rfl

theorem EcallWrite.my_write_eq (env : Env) (fd : Int) (buff count : Nat) (s : State) :
    EcallWrite.my_write env fd buff count s
      = Insn.ecall env (EcallWrite.atTrap fd buff count s) := by
  have h := Nat.mod_eq_of_lt (toWord_lt fd)
  simp only [EcallWrite.my_write, li_bind, EcallWrite.atTrap, tick, Regs.set, h]
  rfl

theorem CtxSwitch.my_getpid_eq (env : Env) (s : State) :
    CtxSwitch.my_getpid env s
      = (Insn.ecall env >>= fun _ s1 => Res.ok (toLong s1.regs.a0) s1) (CtxSwitch.atTrap s) := by
  simp only [CtxSwitch.my_getpid, li_bind]
  simp only [CtxSwitch.atTrap, tick, Regs.set, Nat.reducePow, Nat.reduceMod]

theorem ecall_resume (env : Env) (s : State) (v : Nat) (w : World)
    (h : env.trap s.regs s.mem s.world = Trap.resume v w) :
    Insn.ecall env s = Res.ok ()
      { s with regs := { s.regs with a0 := v % 2 ^ 64 }, time := s.time + 1,
               trace := s.trace ++ [Event.ecall s.regs], world := w } := by
  simp only [Insn.ecall, h, tick, Regs.set]

theorem ecall_terminate (env : Env) (s : State) (st : Int) (w : World)
    (h : env.trap s.regs s.mem s.world = Trap.terminate st w) :
    Insn.ecall env s = Res.halt (Halt.exited st)
      { s with time := s.time + 1, trace := s.trace ++ [Event.ecall s.regs], world := w } := by
  simp only [Insn.ecall, h, tick]

theorem toLong_mod (v : Nat) : toLong (v % 2 ^ 64) = toLong v := by
  simp only [toLong, Nat.mod_mod]

/-! ## The calling convention -/

/-- C4: at the moment each wrapper traps, the registers hold the convention:
`my_exit(code)` has `a7 = 93` and `a0 = code`; `my_write(fd, buff, count)` has
`a7 = 64`, `a0 = fd`, `a1 = buff`, `a2 = count`; `my_getpid()` has `a7 = 172`,
leaves the argument registers as it found them and returns what the trap left
in `a0`. Each wrapper adds exactly one event to the trace, its `ecall`,
whatever the environment answers. -/
theorem wrappers_follow_convention (env : Env) (s : State) (code fd : Int) (buff count : Nat)
    (hcode : IsInt code) (hfd : IsInt fd) (hbuff : buff < 2 ^ 64) (hcount : count < 2 ^ 64) :
    ((EcallExit.my_exit env code s).state.trace
        = s.trace ++ [Event.ecall { a0 := toWord code, a1 := s.regs.a1, a2 := s.regs.a2, a7 := 93 }]
      ∧ toLong (toWord code) = code)
    ∧ ((EcallWrite.my_write env fd buff count s).state.trace
        = s.trace ++ [Event.ecall { a0 := toWord fd, a1 := buff, a2 := count, a7 := 64 }]
      ∧ toLong (toWord fd) = fd)
    ∧ ((CtxSwitch.my_getpid env s).state.trace
        = s.trace ++ [Event.ecall { a0 := s.regs.a0, a1 := s.regs.a1, a2 := s.regs.a2, a7 := 172 }]
      ∧ (∀ r s1, CtxSwitch.my_getpid env s = Res.ok r s1 → r = toLong s1.regs.a0)
      ∧ (∀ v w, env.trap { a0 := s.regs.a0, a1 := s.regs.a1, a2 := s.regs.a2, a7 := 172 }
            s.mem s.world = Trap.resume v w →
          (CtxSwitch.my_getpid env s).value = some (toLong v))) := by
  obtain ⟨hc1, hc2⟩ := hcode
  obtain ⟨hf1, hf2⟩ := hfd
  refine ⟨⟨?_, ?_⟩, ⟨?_, ?_⟩, ?_, ?_, ?_⟩
  · rw [EcallExit.my_exit_eq, ecall_trace]; rfl
  · exact toLong_toWord code ⟨by omega, by omega⟩
  · rw [EcallWrite.my_write_eq, ecall_trace]
    simp only [EcallWrite.atTrap, Nat.mod_eq_of_lt hbuff, Nat.mod_eq_of_lt hcount]
  · exact toLong_toWord fd ⟨by omega, by omega⟩
  · rw [CtxSwitch.my_getpid_eq, run_bind]
    have ht := ecall_trace env (CtxSwitch.atTrap s)
    cases hr : Insn.ecall env (CtxSwitch.atTrap s) with
    | ok a s1 => rw [hr] at ht; exact ht
    | halt h s1 => rw [hr] at ht; exact ht
  · intro r s1 h
    rw [CtxSwitch.my_getpid_eq, run_bind] at h
    cases hr : Insn.ecall env (CtxSwitch.atTrap s) with
    | ok a s2 =>
      rw [hr] at h
      injection h with h1 h2
      rw [← h1, h2]
    | halt hh s2 => rw [hr] at h; cases h
  · intro v w h
    rw [CtxSwitch.my_getpid_eq, run_bind, ecall_resume env (CtxSwitch.atTrap s) v w h]
    simp only [Res.value, toLong_mod]

/-! ## Buffered output -/

theorem pending_snoc_nl (xs : List Char) : pending (xs ++ [nl]) = [] := by
  simp [pending]

theorem complete_snoc_nl (xs : List Char) : complete (xs ++ [nl]) = xs ++ [nl] := by
  simp [complete, pending_snoc_nl]

theorem deliver_snoc_nl (src : Source) (xs : List Char) (w : World) :
    deliver src (xs ++ [nl]) w = { stdout := w.stdout ++ [{ src := src, bytes := xs ++ [nl] }] } := by
  simp [deliver]

/-- A line printed under line buffering goes out at once, with what was pending. -/
theorem printfState_line (env : Env) (xs : List Char) (s : State)
    (hmode : env.bufMode = BufMode.lineBuffered) :
    printfState env (xs ++ [nl]) s
      = { s with time := s.time + 1, trace := s.trace ++ [Event.printf (xs ++ [nl])], buf := [],
                 world := { stdout := s.world.stdout
                              ++ [{ src := Source.libc, bytes := s.buf ++ xs ++ [nl] }] } } := by
  simp only [printfState, hmode, tick, ← List.append_assoc, pending_snoc_nl, complete_snoc_nl,
    deliver_snoc_nl]

/-- Under full buffering a printed text stays in the buffer. -/
theorem printfState_full (env : Env) (text : List Char) (s : State)
    (hmode : env.bufMode = BufMode.fullyBuffered) :
    printfState env text s
      = { s with time := s.time + 1, trace := s.trace ++ [Event.printf text],
                 buf := s.buf ++ text } := by
  simp only [printfState, hmode, tick]

theorem about_line : "About to trigger ecall...\n".toList = "About to trigger ecall...".toList ++ [nl] := by
  decide

/-! ## `ecall_exit.c` -/

/-- Under a supervisor whose service 93 ends the process with the status in
`a0`, `my_exit` stops in its trap. -/
theorem EcallExit.my_exit_halts (env : Env) (code : Int) (s : State) (hcode : IsInt code)
    (hexit : ∀ r m w, r.a7 = 93 → env.trap r m w = Trap.terminate (toLong r.a0) w) :
    EcallExit.my_exit env code s = Res.halt (Halt.exited code)
      { s with regs := { a0 := toWord code, a1 := s.regs.a1, a2 := s.regs.a2, a7 := 93 },
               time := s.time + 3,
               trace := s.trace ++ [Event.ecall
                 { a0 := toWord code, a1 := s.regs.a1, a2 := s.regs.a2, a7 := 93 }] } := by
  have hl : toLong (toWord code) = code :=
    toLong_toWord code ⟨by have := hcode.1; omega, by have := hcode.2; omega⟩
  rw [EcallExit.my_exit_eq,
    ecall_terminate env (EcallExit.atTrap code s) (toLong (toWord code)) s.world (hexit _ _ _ rfl), hl]
  rfl

/-- C1: under an environment whose service 93 ends the process with the status
held in `a0`, `my_exit(code)` issues exactly one `ecall`, does not return, and
the exit status is `code`; a run of `main` of `ecall_exit.c` calls `printf`
once, for "About to trigger ecall...", never for "Never reaches here", puts at
most that first line on standard output, and ends with status 0. -/
theorem my_exit_terminates_process (env : Env) (code : Int) (s : State) (regs : Regs)
    (mem : Nat → Char) (hcode : IsInt code)
    (hexit : ∀ r m w, r.a7 = 93 → env.trap r m w = Trap.terminate (toLong r.a0) w) :
    (∃ s1, EcallExit.my_exit env code s = Res.halt (Halt.exited code) s1
        ∧ s1.trace = s.trace ++ [Event.ecall
            { a0 := toWord code, a1 := s.regs.a1, a2 := s.regs.a2, a7 := 93 }]
        ∧ s1.world = s.world ∧ s1.buf = s.buf)
    ∧ (∃ s2, EcallExit.main env (boot regs mem) = Res.halt (Halt.exited 0) s2
        ∧ s2.trace = [Event.printf "About to trigger ecall...\n".toList,
            Event.ecall { a0 := 0, a1 := regs.a1, a2 := regs.a2, a7 := 93 }]
        ∧ Event.printf "Never reaches here\n".toList ∉ s2.trace)
    ∧ (finish (EcallExit.main env (boot regs mem))).term = Termination.normal 0
    ∧ ((finish (EcallExit.main env (boot regs mem))).out.bytes = []
        ∨ (finish (EcallExit.main env (boot regs mem))).out.bytes
            = "About to trigger ecall...\n".toList) := by
  have hzero : IsInt 0 := by decide
  have hmain : EcallExit.main env (boot regs mem)
      = (EcallExit.my_exit env 0 >>= fun _ =>
          (printf env "Never reaches here\n".toList >>= fun _ => (pure 0 : Run Int)))
          (printfState env "About to trigger ecall...\n".toList (boot regs mem)) := rfl
  rw [hmain, run_bind, EcallExit.my_exit_halts env 0 _ hzero hexit]
  refine ⟨⟨_, EcallExit.my_exit_halts env code s hcode hexit, rfl, rfl, rfl⟩, ?_, ?_, ?_⟩
  · refine ⟨_, rfl, ?_, ?_⟩
    · cases hmode : env.bufMode <;> simp [printfState, hmode, tick, boot, toWord]
    · cases hmode : env.bufMode <;> simp [printfState, hmode, tick, boot]
  · rfl
  · cases hmode : env.bufMode
    · right
      rw [about_line, printfState_line env _ _ hmode]
      simp [finish, boot, World.bytes]
    · left
      rw [printfState_full env _ _ hmode]
      simp [finish, boot, World.bytes]

theorem proxyKernel_exit (mode : BufMode) (pid : Nat) (r : Regs) (m : Nat → Char) (w : World)
    (h : r.a7 = 93) : (proxyKernel mode pid).trap r m w = Trap.terminate (toLong r.a0) w := by
  simp [proxyKernel, h]

/-- Instance of C1 at the proxy kernel with line buffering and `code = 3`. -/
theorem my_exit_terminates_process_witness :
    IsInt 3
    ∧ (∀ r m w, r.a7 = 93 →
        (proxyKernel BufMode.lineBuffered 42).trap r m w = Trap.terminate (toLong r.a0) w)
    ∧ ((∃ s1, EcallExit.my_exit (proxyKernel BufMode.lineBuffered 42) 3 (boot zeroRegs zeroMem) = Res.halt (Halt.exited 3) s1
        ∧ s1.trace = (boot zeroRegs zeroMem).trace ++ [Event.ecall
            { a0 := toWord 3, a1 := (boot zeroRegs zeroMem).regs.a1, a2 := (boot zeroRegs zeroMem).regs.a2, a7 := 93 }]
        ∧ s1.world = (boot zeroRegs zeroMem).world ∧ s1.buf = (boot zeroRegs zeroMem).buf)
    ∧ (∃ s2, EcallExit.main (proxyKernel BufMode.lineBuffered 42) (boot zeroRegs zeroMem) = Res.halt (Halt.exited 0) s2
        ∧ s2.trace = [Event.printf "About to trigger ecall...\n".toList,
            Event.ecall { a0 := 0, a1 := zeroRegs.a1, a2 := zeroRegs.a2, a7 := 93 }]
        ∧ Event.printf "Never reaches here\n".toList ∉ s2.trace)
    ∧ (finish (EcallExit.main (proxyKernel BufMode.lineBuffered 42) (boot zeroRegs zeroMem))).term = Termination.normal 0
    ∧ ((finish (EcallExit.main (proxyKernel BufMode.lineBuffered 42) (boot zeroRegs zeroMem))).out.bytes = []
        ∨ (finish (EcallExit.main (proxyKernel BufMode.lineBuffered 42) (boot zeroRegs zeroMem))).out.bytes
            = "About to trigger ecall...\n".toList)) :=
  ⟨by decide, proxyKernel_exit BufMode.lineBuffered 42,
    my_exit_terminates_process (proxyKernel BufMode.lineBuffered 42) 3
      (boot zeroRegs zeroMem) zeroRegs zeroMem (by decide)
      (proxyKernel_exit BufMode.lineBuffered 42)⟩

/-- Instance of C4 at the proxy kernel: `my_exit(3)`, `my_write(1, 4096, 22)`. -/
theorem wrappers_follow_convention_witness :
    IsInt 3 ∧ IsInt 1 ∧ 4096 < 2 ^ 64 ∧ 22 < 2 ^ 64
    ∧ (((EcallExit.my_exit (proxyKernel BufMode.lineBuffered 42) 3 (boot zeroRegs zeroMem)).state.trace
        = (boot zeroRegs zeroMem).trace ++ [Event.ecall { a0 := toWord 3, a1 := (boot zeroRegs zeroMem).regs.a1, a2 := (boot zeroRegs zeroMem).regs.a2, a7 := 93 }]
      ∧ toLong (toWord 3) = 3)
    ∧ ((EcallWrite.my_write (proxyKernel BufMode.lineBuffered 42) 1 4096 22 (boot zeroRegs zeroMem)).state.trace
        = (boot zeroRegs zeroMem).trace ++ [Event.ecall { a0 := toWord 1, a1 := 4096, a2 := 22, a7 := 64 }]
      ∧ toLong (toWord 1) = 1)
    ∧ ((CtxSwitch.my_getpid (proxyKernel BufMode.lineBuffered 42) (boot zeroRegs zeroMem)).state.trace
        = (boot zeroRegs zeroMem).trace ++ [Event.ecall { a0 := (boot zeroRegs zeroMem).regs.a0, a1 := (boot zeroRegs zeroMem).regs.a1, a2 := (boot zeroRegs zeroMem).regs.a2, a7 := 172 }]
      ∧ (∀ r s1, CtxSwitch.my_getpid (proxyKernel BufMode.lineBuffered 42) (boot zeroRegs zeroMem) = Res.ok r s1 → r = toLong s1.regs.a0)
      ∧ (∀ v w, (proxyKernel BufMode.lineBuffered 42).trap { a0 := (boot zeroRegs zeroMem).regs.a0, a1 := (boot zeroRegs zeroMem).regs.a1, a2 := (boot zeroRegs zeroMem).regs.a2, a7 := 172 }
            (boot zeroRegs zeroMem).mem (boot zeroRegs zeroMem).world = Trap.resume v w →
          (CtxSwitch.my_getpid (proxyKernel BufMode.lineBuffered 42) (boot zeroRegs zeroMem)).value = some (toLong v)))) :=
  ⟨by decide, by decide, by norm_num, by norm_num,
    wrappers_follow_convention (proxyKernel BufMode.lineBuffered 42)
      (boot zeroRegs zeroMem) 3 1 4096 22 (by decide) (by decide) (by norm_num) (by norm_num)⟩

/-! ## `03. Custom Traps/main.c` -/

/-- The loop `while(1);` uses up any fuel. -/
theorem CustomTraps.exit_spins (code : Int) (fuel : Nat) (s : State) :
    CustomTraps._exit code fuel s = Res.halt Halt.outOfFuel { s with time := s.time + fuel } := by
  induction fuel generalizing s with
  | zero => rfl
  | succ n ih =>
    have h : s.time + 1 + n = s.time + (n + 1) := by omega
    simp only [CustomTraps._exit, ne_eq, one_ne_zero, not_false_eq_true, if_true, ih, tick, h]

/-- C10: `main` of `03. Custom Traps/main.c` issues exactly one `ecall`, with
the registers as it found them; `_exit` never returns, for every code and
every amount of fuel; when the `ecall` returns, `main` is still running
however much fuel it gets; `main` never returns, and the process ends only
if the environment ends it inside the trap. -/
theorem custom_trap_main_never_returns (env : Env) (fuel : Nat) (s : State) :
    (CustomTraps.main env fuel s).state.trace = s.trace ++ [Event.ecall s.regs]
    ∧ (∀ (code : Int) (n : Nat) (t : State),
        ∃ t1, CustomTraps._exit code n t = Res.halt Halt.outOfFuel t1 ∧ t1.trace = t.trace)
    ∧ (∀ v w, env.trap s.regs s.mem s.world = Trap.resume v w →
        ∃ s1, CustomTraps.main env fuel s = Res.halt Halt.outOfFuel s1)
    ∧ (CustomTraps.main env fuel s).value = none
    ∧ (∀ st, (finish (CustomTraps.main env fuel s)).term = Termination.normal st →
        ∃ w, env.trap s.regs s.mem s.world = Trap.terminate st w) := by
  have hmain : CustomTraps.main env fuel s
      = (Insn.ecall env >>= fun _ =>
          (CustomTraps._exit 0 fuel >>= fun _ => (pure 0 : Run Int))) s := rfl
  rw [hmain]
  refine ⟨?_, fun code n t => ⟨_, CustomTraps.exit_spins code n t, rfl⟩, ?_, ?_, ?_⟩
  · cases ht : env.trap s.regs s.mem s.world <;>
      simp [run_bind, Insn.ecall, ht, CustomTraps.exit_spins, Res.state, tick]
  · intro v w ht
    simp [run_bind, Insn.ecall, ht, CustomTraps.exit_spins]
  · cases ht : env.trap s.regs s.mem s.world <;>
      simp [run_bind, Insn.ecall, ht, CustomTraps.exit_spins, Res.value]
  · intro st
    cases ht : env.trap s.regs s.mem s.world <;>
      simp [run_bind, Insn.ecall, ht, CustomTraps.exit_spins, finish]

/-- Instance of C10 where the trap returns: under the proxy kernel, which
refuses service 0 and returns, `main` is still running after 10 units of fuel. -/
theorem custom_trap_main_never_returns_witness :
    (proxyKernel BufMode.lineBuffered 42).trap (boot zeroRegs zeroMem).regs
        (boot zeroRegs zeroMem).mem (boot zeroRegs zeroMem).world
      = Trap.resume (toWord (-38)) { stdout := [] }
    ∧ ∃ s1, CustomTraps.main (proxyKernel BufMode.lineBuffered 42) 10 (boot zeroRegs zeroMem)
        = Res.halt Halt.outOfFuel s1 :=
  ⟨rfl, (custom_trap_main_never_returns (proxyKernel BufMode.lineBuffered 42) 10
    (boot zeroRegs zeroMem)).2.2.1 (toWord (-38)) { stdout := [] } rfl⟩

/-! ## `mstatus.c` -/

/-- C3: in an execution context where the read of `mstatus` faults, every run
of `main` of `mstatus.c` is ended abnormally at its first instruction: it does
not return, it calls `printf` not even once, and standard output stays empty,
so the "End Status" line is not printed. -/
theorem mstatus_probe_faults (env : Env) (fuel : Nat) (regs : Regs) (mem : Nat → Char)
    (hunpriv : env.mstatus = none) :
    ∃ s1, Mstatus.main env fuel (boot regs mem) = Res.halt Halt.trapped s1
      ∧ s1.trace = [Event.csrr_mstatus none]
      ∧ (∀ text, Event.printf text ∉ s1.trace)
      ∧ (Mstatus.main env fuel (boot regs mem)).value = none
      ∧ (finish (Mstatus.main env fuel (boot regs mem))).term = Termination.abnormal
      ∧ (finish (Mstatus.main env fuel (boot regs mem))).out.bytes = [] := by
  have hread : Insn.csrr_mstatus env (boot regs mem)
      = Res.halt Halt.trapped
          (tick { boot regs mem with trace := [] ++ [Event.csrr_mstatus none] }) := by
    simp only [Insn.csrr_mstatus, hunpriv, boot]
  have hmain : Mstatus.main env fuel (boot regs mem)
      = Res.halt Halt.trapped
          (tick { boot regs mem with trace := [] ++ [Event.csrr_mstatus none] }) := by
    simp only [Mstatus.main, Mstatus.read_mstatus, run_bind, hread]
  rw [hmain]
  refine ⟨_, rfl, rfl, ?_, rfl, rfl, rfl⟩
  intro text
  simp [tick]

/-- Instance of C3 at the proxy kernel, which denies `mstatus`. -/
theorem mstatus_probe_faults_witness :
    (proxyKernel BufMode.lineBuffered 42).mstatus = none
    ∧ ∃ s1, Mstatus.main (proxyKernel BufMode.lineBuffered 42) 2000 (boot zeroRegs zeroMem)
        = Res.halt Halt.trapped s1
      ∧ s1.trace = [Event.csrr_mstatus none]
      ∧ (∀ text, Event.printf text ∉ s1.trace)
      ∧ (Mstatus.main (proxyKernel BufMode.lineBuffered 42) 2000 (boot zeroRegs zeroMem)).value
          = none
      ∧ (finish (Mstatus.main (proxyKernel BufMode.lineBuffered 42) 2000
          (boot zeroRegs zeroMem))).term = Termination.abnormal
      ∧ (finish (Mstatus.main (proxyKernel BufMode.lineBuffered 42) 2000
          (boot zeroRegs zeroMem))).out.bytes = [] :=
  ⟨rfl, mstatus_probe_faults (proxyKernel BufMode.lineBuffered 42) 2000 zeroRegs zeroMem rfl⟩

/-! ## `ecall_write.c` -/

/-- When the trap of `my_write` returns, `main` of `ecall_write.c` prints its
last line and returns 0. -/
theorem EcallWrite.main_resume (env : Env) (msgAddr : Nat) (s : State) (v : Nat) (w : World)
    (h : env.trap (EcallWrite.beforeTrap env msgAddr s).regs
          (EcallWrite.beforeTrap env msgAddr s).mem
          (EcallWrite.beforeTrap env msgAddr s).world = Trap.resume v w) :
    EcallWrite.main env msgAddr s = Res.ok 0
      (printfState env "That's it RISC-V.\n".toList
        { EcallWrite.beforeTrap env msgAddr s with
          regs := { (EcallWrite.beforeTrap env msgAddr s).regs with a0 := v % 2 ^ 64 },
          time := (EcallWrite.beforeTrap env msgAddr s).time + 1,
          trace := (EcallWrite.beforeTrap env msgAddr s).trace
            ++ [Event.ecall (EcallWrite.beforeTrap env msgAddr s).regs],
          world := w }) := by
  have hmain : EcallWrite.main env msgAddr s
      = (EcallWrite.my_write env 1 msgAddr (EcallWrite.msg.length - 1) >>= fun _ =>
          (printf env "That's it RISC-V.\n".toList >>= fun _ => (pure 0 : Run Int)))
          (storeBytes msgAddr EcallWrite.msg
            (printfState env "About to trigger ecall...\n".toList s)).state := rfl
  rw [hmain, run_bind, EcallWrite.my_write_eq]
  have h2 := ecall_resume env (EcallWrite.beforeTrap env msgAddr s) v w h
  unfold EcallWrite.beforeTrap at h2
  rw [h2]
  rfl

theorem EcallWrite.msg_length : EcallWrite.msg.length = 23 := by decide

theorem thats_line : "That's it RISC-V.\n".toList = "That's it RISC-V.".toList ++ [nl] := by
  decide

theorem hello_line : "Hello from raw ecall!\n".toList = "Hello from raw ecall!".toList ++ [nl] := by
  decide

/-- The first `sizeof(msg) - 1` bytes of the stored array are the characters of
the literal, without the NUL. -/
theorem EcallWrite.read_msg (msgAddr : Nat) (s : State) :
    readBytes (storeBytes msgAddr EcallWrite.msg s).state.mem msgAddr 22
      = "Hello from raw ecall!\n".toList := by
  have hcongr : ∀ i ∈ List.range 22,
      (storeBytes msgAddr EcallWrite.msg s).state.mem (msgAddr + i)
        = EcallWrite.msg.getD i (Char.ofNat 0) := by
    intro i hi
    have hi2 : i < 22 := List.mem_range.mp hi
    have hc : msgAddr ≤ msgAddr + i ∧ msgAddr + i < msgAddr + EcallWrite.msg.length := by
      rw [EcallWrite.msg_length]; omega
    simp only [storeBytes, Res.state, tick, hc, and_self, if_true, Nat.add_sub_cancel_left]
  unfold readBytes
  rw [List.map_congr_left hcongr]
  decide

theorem EcallWrite.beforeTrap_regs_mod (env : Env) (msgAddr : Nat) (s : State) :
    (EcallWrite.beforeTrap env msgAddr s).regs
      = { a0 := 1, a1 := msgAddr % 2 ^ 64, a2 := 22, a7 := 64 } := by
  have h1 : toWord 1 = 1 := by decide
  have h2 : (EcallWrite.msg.length - 1) % 2 ^ 64 = 22 := by decide
  simp only [EcallWrite.beforeTrap, EcallWrite.atTrap, h1, h2]

theorem EcallWrite.beforeTrap_regs (env : Env) (msgAddr : Nat) (s : State)
    (hp : msgAddr < 2 ^ 64) :
    (EcallWrite.beforeTrap env msgAddr s).regs = { a0 := 1, a1 := msgAddr, a2 := 22, a7 := 64 } := by
  rw [EcallWrite.beforeTrap_regs_mod, Nat.mod_eq_of_lt hp]

theorem EcallWrite.beforeTrap_read (env : Env) (msgAddr : Nat) (s : State) :
    readBytes (EcallWrite.beforeTrap env msgAddr s).mem msgAddr 22
      = "Hello from raw ecall!\n".toList :=
  EcallWrite.read_msg msgAddr (printfState env "About to trigger ecall...\n".toList s)

theorem printfState_trace (env : Env) (text : List Char) (s : State) :
    (printfState env text s).trace = s.trace ++ [Event.printf text] := by
  unfold printfState; cases env.bufMode <;> rfl

theorem printfState_mem (env : Env) (text : List Char) (s : State) :
    (printfState env text s).mem = s.mem := by
  unfold printfState; cases env.bufMode <;> rfl

theorem printfState_regs (env : Env) (text : List Char) (s : State) :
    (printfState env text s).regs = s.regs := by
  unfold printfState; cases env.bufMode <;> rfl

theorem printfState_time (env : Env) (text : List Char) (s : State) :
    (printfState env text s).time = s.time + 1 := by
  unfold printfState; cases env.bufMode <;> rfl

theorem deliver_nil (src : Source) (w : World) : deliver src [] w = w := by
  simp [deliver]

theorem deliver_ne (src : Source) (bs : List Char) (w : World) (h : bs ≠ []) :
    deliver src bs w = { stdout := w.stdout ++ [{ src := src, bytes := bs }] } := by
  simp [deliver, h]

/-- Line buffering, for a text given with its final newline split off. -/
theorem printfState_line_of (env : Env) (text xs : List Char) (s : State)
    (hmode : env.bufMode = BufMode.lineBuffered) (ht : text = xs ++ [nl]) :
    printfState env text s
      = { s with time := s.time + 1, trace := s.trace ++ [Event.printf text], buf := [],
                 world := { stdout := s.world.stdout
                              ++ [{ src := Source.libc, bytes := s.buf ++ text }] } } := by
  subst ht
  rw [printfState_line env xs s hmode, List.append_assoc]

theorem hello_ne : "Hello from raw ecall!\n".toList ≠ [] := by decide

/-- C2: when the write service delivers its bytes at once, a run of `main` of
`ecall_write.c` returns 0 after one trap, with `a7 = 64`, `a0 = 1`, the address
of `msg` in `a1` and `sizeof(msg) - 1 = 22` in `a2`; under either stdio policy
standard output holds the 22 bytes "Hello from raw ecall!" and newline (no NUL)
as the one piece that came from the trap and not from the C library, and that
piece comes before the line "That's it RISC-V.". -/
theorem raw_write_reaches_stdout (env : Env) (regs : Regs) (mem : Nat → Char) (msgAddr : Nat)
    (hp : msgAddr + EcallWrite.msg.length ≤ 2 ^ 64)
    (hwrite : ∀ r m w, r.a7 = 64 → r.a0 = 1 →
      ∃ v, env.trap r m w = Trap.resume v (deliver Source.raw (readBytes m r.a1 r.a2) w)) :
    "Hello from raw ecall!\n".toList.length = 22
    ∧ EcallWrite.msg.length - 1 = 22
    ∧ (∃ s1, EcallWrite.main env msgAddr (boot regs mem) = Res.ok 0 s1
        ∧ s1.trace = [Event.printf "About to trigger ecall...\n".toList,
            Event.ecall { a0 := 1, a1 := msgAddr, a2 := 22, a7 := 64 },
            Event.printf "That's it RISC-V.\n".toList]
        ∧ readBytes s1.mem msgAddr 22 = "Hello from raw ecall!\n".toList)
    ∧ (finish (EcallWrite.main env msgAddr (boot regs mem))).term = Termination.normal 0
    ∧ (env.bufMode = BufMode.lineBuffered →
        (finish (EcallWrite.main env msgAddr (boot regs mem))).out.stdout
          = [{ src := Source.libc, bytes := "About to trigger ecall...\n".toList },
             { src := Source.raw, bytes := "Hello from raw ecall!\n".toList },
             { src := Source.libc, bytes := "That's it RISC-V.\n".toList }])
    ∧ (env.bufMode = BufMode.fullyBuffered →
        (finish (EcallWrite.main env msgAddr (boot regs mem))).out.stdout
          = [{ src := Source.raw, bytes := "Hello from raw ecall!\n".toList },
             { src := Source.libc,
               bytes := "About to trigger ecall...\n".toList ++ "That's it RISC-V.\n".toList }])
    ∧ (∃ pre mid, (finish (EcallWrite.main env msgAddr (boot regs mem))).out.bytes
          = pre ++ "Hello from raw ecall!\n".toList ++ mid ++ "That's it RISC-V.\n".toList) := by
  have hlt : msgAddr < 2 ^ 64 := by rw [EcallWrite.msg_length] at hp; omega
  have hregs := EcallWrite.beforeTrap_regs env msgAddr (boot regs mem) hlt
  obtain ⟨v, hv⟩ := hwrite (EcallWrite.beforeTrap env msgAddr (boot regs mem)).regs
    (EcallWrite.beforeTrap env msgAddr (boot regs mem)).mem
    (EcallWrite.beforeTrap env msgAddr (boot regs mem)).world
    (by rw [hregs]) (by rw [hregs])
  have hmain := EcallWrite.main_resume env msgAddr (boot regs mem) v _ hv
  have hread : readBytes (EcallWrite.beforeTrap env msgAddr (boot regs mem)).mem
      (EcallWrite.beforeTrap env msgAddr (boot regs mem)).regs.a1
      (EcallWrite.beforeTrap env msgAddr (boot regs mem)).regs.a2
        = "Hello from raw ecall!\n".toList := by
    rw [hregs]; exact EcallWrite.beforeTrap_read env msgAddr (boot regs mem)
  rw [hread, deliver_ne _ _ _ hello_ne] at hmain
  have hline : ∀ hmode : env.bufMode = BufMode.lineBuffered,
      (finish (EcallWrite.main env msgAddr (boot regs mem))).out.stdout
          = [{ src := Source.libc, bytes := "About to trigger ecall...\n".toList },
             { src := Source.raw, bytes := "Hello from raw ecall!\n".toList },
             { src := Source.libc, bytes := "That's it RISC-V.\n".toList }] := by
    intro hmode
    rw [hmain, printfState_line_of env _ _ _ hmode thats_line]
    simp only [finish, deliver_nil, EcallWrite.beforeTrap, EcallWrite.atTrap, storeBytes,
      Res.state, tick, printfState_line_of env _ _ _ hmode about_line, boot, List.nil_append,
      List.cons_append]
  have hfull : ∀ hmode : env.bufMode = BufMode.fullyBuffered,
      (finish (EcallWrite.main env msgAddr (boot regs mem))).out.stdout
          = [{ src := Source.raw, bytes := "Hello from raw ecall!\n".toList },
             { src := Source.libc,
               bytes := "About to trigger ecall...\n".toList ++ "That's it RISC-V.\n".toList }] := by
    intro hmode
    have hne : "About to trigger ecall...\n".toList ++ "That's it RISC-V.\n".toList ≠ [] := by
      decide
    rw [hmain, printfState_full env _ _ hmode]
    simp only [finish, EcallWrite.beforeTrap, EcallWrite.atTrap, storeBytes,
      Res.state, tick, printfState_full env _ _ hmode, boot, List.nil_append,
      List.cons_append, deliver_ne _ _ _ hne]
  refine ⟨by decide, by decide, ?_, ?_, hline, hfull, ?_⟩
  · refine ⟨_, hmain, ?_, ?_⟩
    · rw [printfState_trace, hregs]
      simp only [EcallWrite.beforeTrap, EcallWrite.atTrap, storeBytes, Res.state, tick,
        printfState_trace, boot, List.nil_append, List.cons_append]
    · rw [printfState_mem]
      exact EcallWrite.beforeTrap_read env msgAddr (boot regs mem)
  · rw [hmain]; rfl
  · cases hmode : env.bufMode
    · refine ⟨"About to trigger ecall...\n".toList, [], ?_⟩
      simp only [World.bytes, hline hmode, List.map, List.flatten, List.append_nil,
        List.append_assoc]
    · refine ⟨[], "About to trigger ecall...\n".toList, ?_⟩
      simp only [World.bytes, hfull hmode, List.map, List.flatten, List.append_nil,
        List.append_assoc, List.nil_append]

theorem proxyKernel_write (mode : BufMode) (pid : Nat) (r : Regs) (m : Nat → Char) (w : World)
    (h7 : r.a7 = 64) (h0 : r.a0 = 1) :
    ∃ v, (proxyKernel mode pid).trap r m w
      = Trap.resume v (deliver Source.raw (readBytes m r.a1 r.a2) w) :=
  ⟨r.a2, by simp [proxyKernel, h7, h0]⟩

/-- Instance of C2 at the proxy kernel with line buffering, `msg` at address 4096. -/
theorem raw_write_reaches_stdout_witness :
    4096 + EcallWrite.msg.length ≤ 2 ^ 64
    ∧ (∀ r m w, r.a7 = 64 → r.a0 = 1 →
        ∃ v, (proxyKernel BufMode.lineBuffered 42).trap r m w
          = Trap.resume v (deliver Source.raw (readBytes m r.a1 r.a2) w))
    ∧ ("Hello from raw ecall!\n".toList.length = 22
    ∧ EcallWrite.msg.length - 1 = 22
    ∧ (∃ s1, EcallWrite.main (proxyKernel BufMode.lineBuffered 42) 4096 (boot zeroRegs zeroMem) = Res.ok 0 s1
        ∧ s1.trace = [Event.printf "About to trigger ecall...\n".toList,
            Event.ecall { a0 := 1, a1 := 4096, a2 := 22, a7 := 64 },
            Event.printf "That's it RISC-V.\n".toList]
        ∧ readBytes s1.mem 4096 22 = "Hello from raw ecall!\n".toList)
    ∧ (finish (EcallWrite.main (proxyKernel BufMode.lineBuffered 42) 4096 (boot zeroRegs zeroMem))).term = Termination.normal 0
    ∧ ((proxyKernel BufMode.lineBuffered 42).bufMode = BufMode.lineBuffered →
        (finish (EcallWrite.main (proxyKernel BufMode.lineBuffered 42) 4096 (boot zeroRegs zeroMem))).out.stdout
          = [{ src := Source.libc, bytes := "About to trigger ecall...\n".toList },
             { src := Source.raw, bytes := "Hello from raw ecall!\n".toList },
             { src := Source.libc, bytes := "That's it RISC-V.\n".toList }])
    ∧ ((proxyKernel BufMode.lineBuffered 42).bufMode = BufMode.fullyBuffered →
        (finish (EcallWrite.main (proxyKernel BufMode.lineBuffered 42) 4096 (boot zeroRegs zeroMem))).out.stdout
          = [{ src := Source.raw, bytes := "Hello from raw ecall!\n".toList },
             { src := Source.libc,
               bytes := "About to trigger ecall...\n".toList ++ "That's it RISC-V.\n".toList }])
    ∧ (∃ pre mid, (finish (EcallWrite.main (proxyKernel BufMode.lineBuffered 42) 4096 (boot zeroRegs zeroMem))).out.bytes
          = pre ++ "Hello from raw ecall!\n".toList ++ mid ++ "That's it RISC-V.\n".toList)) :=
  ⟨by decide, proxyKernel_write BufMode.lineBuffered 42,
    raw_write_reaches_stdout (proxyKernel BufMode.lineBuffered 42) zeroRegs zeroMem 4096
      (by decide) (proxyKernel_write BufMode.lineBuffered 42)⟩

theorem printfState_congr (env1 env2 : Env) (text : List Char) (s : State)
    (hmode : env1.bufMode = env2.bufMode) :
    printfState env1 text s = printfState env2 text s := by
  simp only [printfState, hmode]

/-- C9: `ecall_write.c` never looks at what the write service returns. Take two
environments with the same stdio policy whose service 64 returns, with any two
values in `a0` (a full write, a short write, an error code) and any two effects
on the world: both runs of `main` return 0 with the same trace, a `printf`, the
single `ecall`, and the `printf` of "That's it RISC-V."; they end in states
that agree on everything but `a0` and what the two traps made of the world,
to which both runs add the same output afterwards; when the traps left the same
world the outside sees the same process. -/
theorem write_result_unobserved (env1 env2 : Env) (regs : Regs) (mem : Nat → Char)
    (msgAddr : Nat) (hmode : env1.bufMode = env2.bufMode)
    (hres : ∀ r m w, r.a7 = 64 →
      (∃ v w1, env1.trap r m w = Trap.resume v w1) ∧ (∃ v w2, env2.trap r m w = Trap.resume v w2)) :
    ∃ s1 s2 v1 v2 w1 w2 tail,
      EcallWrite.main env1 msgAddr (boot regs mem) = Res.ok 0 s1
      ∧ EcallWrite.main env2 msgAddr (boot regs mem) = Res.ok 0 s2
      ∧ env1.trap { a0 := 1, a1 := msgAddr % 2 ^ 64, a2 := 22, a7 := 64 } s1.mem
          (printfState env1 "About to trigger ecall...\n".toList (boot regs mem)).world
          = Trap.resume v1 w1
      ∧ env2.trap { a0 := 1, a1 := msgAddr % 2 ^ 64, a2 := 22, a7 := 64 } s2.mem
          (printfState env2 "About to trigger ecall...\n".toList (boot regs mem)).world
          = Trap.resume v2 w2
      ∧ s1.trace = [Event.printf "About to trigger ecall...\n".toList,
          Event.ecall { a0 := 1, a1 := msgAddr % 2 ^ 64, a2 := 22, a7 := 64 },
          Event.printf "That's it RISC-V.\n".toList]
      ∧ s2.trace = s1.trace
      ∧ s2.buf = s1.buf ∧ s2.mem = s1.mem ∧ s2.time = s1.time
      ∧ s2.regs.a1 = s1.regs.a1 ∧ s2.regs.a2 = s1.regs.a2 ∧ s2.regs.a7 = s1.regs.a7
      ∧ s1.world.stdout = w1.stdout ++ tail ∧ s2.world.stdout = w2.stdout ++ tail
      ∧ (w1 = w2 → finish (EcallWrite.main env2 msgAddr (boot regs mem))
          = finish (EcallWrite.main env1 msgAddr (boot regs mem))) := by
  have hbt : EcallWrite.beforeTrap env2 msgAddr (boot regs mem)
      = EcallWrite.beforeTrap env1 msgAddr (boot regs mem) := by
    simp only [EcallWrite.beforeTrap, printfState_congr env1 env2 _ _ hmode]
  have hregs := EcallWrite.beforeTrap_regs_mod env1 msgAddr (boot regs mem)
  obtain ⟨⟨v1, w1, h1⟩, ⟨v2, w2, h2⟩⟩ :=
    hres (EcallWrite.beforeTrap env1 msgAddr (boot regs mem)).regs
      (EcallWrite.beforeTrap env1 msgAddr (boot regs mem)).mem
      (EcallWrite.beforeTrap env1 msgAddr (boot regs mem)).world (by rw [hregs])
  have hm1 := EcallWrite.main_resume env1 msgAddr (boot regs mem) v1 w1 h1
  have hm2 := EcallWrite.main_resume env2 msgAddr (boot regs mem) v2 w2 (by rw [hbt]; exact h2)
  rw [hbt, ← printfState_congr env1 env2 _ _ hmode] at hm2
  have hw : (EcallWrite.beforeTrap env1 msgAddr (boot regs mem)).world
      = (printfState env1 "About to trigger ecall...\n".toList (boot regs mem)).world := rfl
  rw [hregs, hw] at h1 h2
  have htail : ∃ tail : List Chunk, ∀ (v : Nat) (w : World),
      (printfState env1 "That's it RISC-V.\n".toList
        { EcallWrite.beforeTrap env1 msgAddr (boot regs mem) with
          regs := { (EcallWrite.beforeTrap env1 msgAddr (boot regs mem)).regs with
            a0 := v % 2 ^ 64 },
          time := (EcallWrite.beforeTrap env1 msgAddr (boot regs mem)).time + 1,
          trace := (EcallWrite.beforeTrap env1 msgAddr (boot regs mem)).trace
            ++ [Event.ecall (EcallWrite.beforeTrap env1 msgAddr (boot regs mem)).regs],
          world := w }).world.stdout = w.stdout ++ tail := by
    cases hmode1 : env1.bufMode
    · refine ⟨[Chunk.mk Source.libc ((EcallWrite.beforeTrap env1 msgAddr (boot regs mem)).buf
        ++ "That's it RISC-V.\n".toList)], fun v w => ?_⟩
      rw [printfState_line_of env1 _ _ _ hmode1 thats_line]
    · refine ⟨[], fun v w => ?_⟩
      rw [printfState_full env1 _ _ hmode1, List.append_nil]
  obtain ⟨tail, htl⟩ := htail
  refine ⟨_, _, v1, v2, w1, w2, tail, hm1, hm2, ?_, ?_, ?_, ?_, ?_, ?_, ?_, ?_, ?_, ?_,
    htl v1 w1, htl v2 w2, ?_⟩
  · rw [printfState_mem]; exact h1
  · rw [printfState_mem, ← printfState_congr env1 env2 _ _ hmode]; exact h2
  · rw [printfState_trace, hregs]
    simp only [EcallWrite.beforeTrap, EcallWrite.atTrap, storeBytes, Res.state, tick,
      printfState_trace, boot, List.nil_append, List.cons_append]
  · simp only [printfState_trace]
  · cases hmode1 : env1.bufMode <;> simp only [printfState, hmode1, tick]
  · simp only [printfState_mem]
  · simp only [printfState_time]
  · simp only [printfState_regs]
  · simp only [printfState_regs]
  · simp only [printfState_regs]
  · intro hww
    subst hww
    rw [hm1, hm2]
    cases hmode1 : env1.bufMode <;> simp [printfState, hmode1, tick, finish]

theorem proxyKernel_write_returns (mode : BufMode) (pid : Nat) (r : Regs) (m : Nat → Char)
    (w : World) (h7 : r.a7 = 64) :
    (∃ v w1, (proxyKernel mode pid).trap r m w = Trap.resume v w1)
    ∧ (∃ v w2, (closedStdoutKernel mode pid).trap r m w = Trap.resume v w2) := by
  refine ⟨?_, toWord (-9), w, by simp [closedStdoutKernel, h7]⟩
  by_cases h0 : r.a0 = 1
  · exact ⟨r.a2, deliver Source.raw (readBytes m r.a1 r.a2) w, by simp [proxyKernel, h7, h0]⟩
  · exact ⟨toWord (-9), w, by simp [proxyKernel, h7, h0]⟩

/-- Instance of C9: the proxy kernel, which writes and returns the byte count,
against the same kernel with standard output closed, which returns -9. -/
theorem write_result_unobserved_witness :
    (proxyKernel BufMode.fullyBuffered 42).bufMode
      = (closedStdoutKernel BufMode.fullyBuffered 42).bufMode
    ∧ (∀ r m w, r.a7 = 64 →
        (∃ v w1, (proxyKernel BufMode.fullyBuffered 42).trap r m w = Trap.resume v w1)
        ∧ (∃ v w2, (closedStdoutKernel BufMode.fullyBuffered 42).trap r m w = Trap.resume v w2))
    ∧ (∃ s1 s2 v1 v2 w1 w2 tail,
      EcallWrite.main (proxyKernel BufMode.fullyBuffered 42) 4096 (boot zeroRegs zeroMem) = Res.ok 0 s1
      ∧ EcallWrite.main (closedStdoutKernel BufMode.fullyBuffered 42) 4096 (boot zeroRegs zeroMem) = Res.ok 0 s2
      ∧ (proxyKernel BufMode.fullyBuffered 42).trap { a0 := 1, a1 := 4096 % 2 ^ 64, a2 := 22, a7 := 64 } s1.mem
          (printfState (proxyKernel BufMode.fullyBuffered 42) "About to trigger ecall...\n".toList (boot zeroRegs zeroMem)).world
          = Trap.resume v1 w1
      ∧ (closedStdoutKernel BufMode.fullyBuffered 42).trap { a0 := 1, a1 := 4096 % 2 ^ 64, a2 := 22, a7 := 64 } s2.mem
          (printfState (closedStdoutKernel BufMode.fullyBuffered 42) "About to trigger ecall...\n".toList (boot zeroRegs zeroMem)).world
          = Trap.resume v2 w2
      ∧ s1.trace = [Event.printf "About to trigger ecall...\n".toList,
          Event.ecall { a0 := 1, a1 := 4096 % 2 ^ 64, a2 := 22, a7 := 64 },
          Event.printf "That's it RISC-V.\n".toList]
      ∧ s2.trace = s1.trace
      ∧ s2.buf = s1.buf ∧ s2.mem = s1.mem ∧ s2.time = s1.time
      ∧ s2.regs.a1 = s1.regs.a1 ∧ s2.regs.a2 = s1.regs.a2 ∧ s2.regs.a7 = s1.regs.a7
      ∧ s1.world.stdout = w1.stdout ++ tail ∧ s2.world.stdout = w2.stdout ++ tail
      ∧ (w1 = w2 → finish (EcallWrite.main (closedStdoutKernel BufMode.fullyBuffered 42) 4096 (boot zeroRegs zeroMem))
          = finish (EcallWrite.main (proxyKernel BufMode.fullyBuffered 42) 4096 (boot zeroRegs zeroMem)))) :=
  ⟨rfl, proxyKernel_write_returns BufMode.fullyBuffered 42,
    write_result_unobserved (proxyKernel BufMode.fullyBuffered 42)
      (closedStdoutKernel BufMode.fullyBuffered 42) zeroRegs zeroMem 4096
      rfl (proxyKernel_write_returns BufMode.fullyBuffered 42)⟩

/-! ## The busy loop and the cycle counter -/

/-- Entered with `0 ≤ i ≤ 1000`, the busy loop runs `i++` exactly `1000 - i`
times and leaves, given more fuel than that. -/
theorem busyLoop_run (k : Nat) : ∀ (fuel : Nat) (i : Int) (n : Nat) (s : State),
    0 ≤ i → i + k = 1000 → k < fuel →
    busyLoop fuel i n s = Res.ok (1000, n + k) { s with time := s.time + (2 * k + 1) } := by
  induction k with
  | zero =>
    intro fuel i n s h0 hi hf
    obtain ⟨f, rfl⟩ : ∃ f, fuel = f + 1 := ⟨fuel - 1, by omega⟩
    have hi2 : i = 1000 := by omega
    subst hi2
    simp only [busyLoop, lt_self_iff_false, if_false, tick]
    rfl
  | succ k ih =>
    intro fuel i n s h0 hi hf
    obtain ⟨f, rfl⟩ : ∃ f, fuel = f + 1 := ⟨fuel - 1, by omega⟩
    have hlt : i < 1000 := by omega
    have hw : wrapInt (i + 1) = i + 1 := by unfold wrapInt; omega
    have hstep : busyLoop (f + 1) i n s = busyLoop f (i + 1) (n + 1) (tick (tick s)) := by
      simp only [busyLoop, hlt, if_true, hw]
    rw [hstep, ih f (i + 1) (n + 1) (tick (tick s)) (by omega) (by push_cast at hi ⊢; omega)
      (by omega)]
    have h1 : n + 1 + k = n + (k + 1) := by omega
    have h2 : s.time + 1 + 1 + (2 * k + 1) = s.time + (2 * (k + 1) + 1) := by omega
    simp only [tick, h1, h2]

/-- The loop of `csr_cycles.c` and `mstatus.c` from `i = 0`. -/
theorem busyLoop_thousand (fuel : Nat) (s : State) (hfuel : 1001 ≤ fuel) :
    busyLoop fuel 0 0 s = Res.ok (1000, 1000) { s with time := s.time + 2001 } := by
  have h := busyLoop_run 1000 fuel 0 0 s (le_refl 0) (by norm_num) (by omega)
  simpa using h

theorem cycles_strictMono (env : Env) (hinc : ∀ k, env.cycles k < env.cycles (k + 1)) :
    ∀ j k, j < k → env.cycles j < env.cycles k := by
  intro j k hjk
  induction k with
  | zero => omega
  | succ k ih =>
    by_cases h : j = k
    · subst h; exact hinc j
    · exact lt_trans (ih (by omega)) (hinc k)

/-- Unsigned subtraction recovers the true elapsed count, wrapped or not. -/
theorem sub64_add (c d : Nat) (hd : d < 2 ^ 64) :
    sub64 ((c + d) % 2 ^ 64) (c % 2 ^ 64) = d := by
  unfold sub64
  omega

theorem sub64_of_le (a b : Nat) (ha : a < 2 ^ 64) (hb : b ≤ a) : sub64 a b = a - b := by
  unfold sub64
  omega

/-! ## `csr_cycles.c` -/

/-- With fuel for the loop, `main` of `csr_cycles.c` reads the counter at its
first program point and 2002 points later, prints three lines and returns 0. -/
theorem CsrCycles.csr_main_run (env : Env) (fuel : Nat) (s : State) (hfuel : 1001 ≤ fuel) :
    CsrCycles.main env fuel s = Res.ok 0
      (printfState env ("Elapsed: ".toList
          ++ fmtU (sub64 (env.cycles (s.time + 2002) % 2 ^ 64) (env.cycles s.time % 2 ^ 64))
          ++ "\n".toList)
        (printfState env ("End Cycle: ".toList
            ++ fmtU (env.cycles (s.time + 2002) % 2 ^ 64) ++ "\n".toList)
          (printfState env ("Start Cycle: ".toList
              ++ fmtU (env.cycles s.time % 2 ^ 64) ++ "\n".toList)
            { s with time := s.time + 2003,
                     trace := s.trace ++ [Event.rdcycle (env.cycles s.time % 2 ^ 64),
                       Event.rdcycle (env.cycles (s.time + 2002) % 2 ^ 64)] }))) := by
  have h1 : s.time + 1 + 2001 = s.time + 2002 := by omega
  have h2 : s.time + 2002 + 1 = s.time + 2003 := by omega
  simp only [CsrCycles.main, CsrCycles.rdcycle, Insn.rdcycle, run_bind, tick,
    busyLoop_thousand _ _ hfuel, printf, run_pure, h1, h2, List.append_assoc, List.singleton_append]

/-- C5: against a cycle counter that grows at every program point and does not
wrap during the run, `main` of `csr_cycles.c` (given fuel for its loop) reads
`startCount`, runs the busy loop, which leaves after exactly 1000 executions of
`i++` with `i = 1000`, reads `endCount`, and returns 0 having printed the two
readings and `workCount`; `endCount >= startCount`, `workCount` is
`endCount - startCount`, and `workCount > 0`. -/
theorem cycle_probe_measures_elapsed (env : Env) (fuel : Nat) (regs : Regs) (mem : Nat → Char)
    (hfuel : 1001 ≤ fuel)
    (hinc : ∀ k, env.cycles k < env.cycles (k + 1))
    (hnowrap : ∀ k, k ≤ (CsrCycles.main env fuel (boot regs mem)).state.time →
      env.cycles k / 2 ^ 64 = env.cycles 0 / 2 ^ 64) :
    ∃ startCount endCount s1 s2 s3 sEnd,
      CsrCycles.rdcycle env (boot regs mem) = Res.ok startCount s1
      ∧ busyLoop fuel 0 0 s1 = Res.ok (1000, 1000) s2
      ∧ CsrCycles.rdcycle env s2 = Res.ok endCount s3
      ∧ CsrCycles.main env fuel (boot regs mem) = Res.ok 0 sEnd
      ∧ sEnd.trace = [Event.rdcycle startCount, Event.rdcycle endCount,
          Event.printf ("Start Cycle: ".toList ++ fmtU startCount ++ "\n".toList),
          Event.printf ("End Cycle: ".toList ++ fmtU endCount ++ "\n".toList),
          Event.printf ("Elapsed: ".toList ++ fmtU (sub64 endCount startCount) ++ "\n".toList)]
      ∧ startCount ≤ endCount
      ∧ sub64 endCount startCount = endCount - startCount
      ∧ 0 < sub64 endCount startCount := by
  have hmain := CsrCycles.csr_main_run env fuel (boot regs mem) hfuel
  have htime : (CsrCycles.main env fuel (boot regs mem)).state.time = 2006 := by
    rw [hmain]
    simp only [Res.state, printfState_time, boot]
  have hq := hnowrap 2002 (by rw [htime]; omega)
  have hlt := cycles_strictMono env hinc 0 2002 (by omega)
  have hd0 := Nat.div_add_mod (env.cycles 0) (2 ^ 64)
  have hd1 := Nat.div_add_mod (env.cycles 2002) (2 ^ 64)
  have hm0 := Nat.mod_lt (env.cycles 0) (show 0 < 2 ^ 64 by norm_num)
  have hm1 := Nat.mod_lt (env.cycles 2002) (show 0 < 2 ^ 64 by norm_num)
  have hle : env.cycles 0 % 2 ^ 64 < env.cycles 2002 % 2 ^ 64 := by
    rw [hq] at hd1
    omega
  have hsub := sub64_of_le _ _ hm1 (le_of_lt hle)
  have hboot : (boot regs mem).time + 2002 = 2002 := by simp only [boot, Nat.zero_add]
  rw [hboot] at hmain
  refine ⟨env.cycles 0 % 2 ^ 64, env.cycles 2002 % 2 ^ 64, _, _, _, _, rfl,
    busyLoop_thousand fuel _ hfuel, rfl, hmain, ?_, le_of_lt hle, hsub, ?_⟩
  · simp only [printfState_trace, boot, List.nil_append, List.cons_append, List.append_assoc]
  · rw [hsub]; omega

/-- Instance of C5 at the proxy kernel, whose counter is the program point. -/
theorem cycle_probe_measures_elapsed_witness :
    1001 ≤ 1001
    ∧ (∀ k, (proxyKernel BufMode.lineBuffered 42).cycles k
        < (proxyKernel BufMode.lineBuffered 42).cycles (k + 1))
    ∧ (∀ k, k ≤ (CsrCycles.main (proxyKernel BufMode.lineBuffered 42) 1001
          (boot zeroRegs zeroMem)).state.time →
        (proxyKernel BufMode.lineBuffered 42).cycles k / 2 ^ 64
          = (proxyKernel BufMode.lineBuffered 42).cycles 0 / 2 ^ 64)
    ∧ (∃ startCount endCount s1 s2 s3 sEnd,
      CsrCycles.rdcycle (proxyKernel BufMode.lineBuffered 42) (boot zeroRegs zeroMem) = Res.ok startCount s1
      ∧ busyLoop 1001 0 0 s1 = Res.ok (1000, 1000) s2
      ∧ CsrCycles.rdcycle (proxyKernel BufMode.lineBuffered 42) s2 = Res.ok endCount s3
      ∧ CsrCycles.main (proxyKernel BufMode.lineBuffered 42) 1001 (boot zeroRegs zeroMem) = Res.ok 0 sEnd
      ∧ sEnd.trace = [Event.rdcycle startCount, Event.rdcycle endCount,
          Event.printf ("Start Cycle: ".toList ++ fmtU startCount ++ "\n".toList),
          Event.printf ("End Cycle: ".toList ++ fmtU endCount ++ "\n".toList),
          Event.printf ("Elapsed: ".toList ++ fmtU (sub64 endCount startCount) ++ "\n".toList)]
      ∧ startCount ≤ endCount
      ∧ sub64 endCount startCount = endCount - startCount
      ∧ 0 < sub64 endCount startCount) :=
  have hinc : ∀ k, (proxyKernel BufMode.lineBuffered 42).cycles k
      < (proxyKernel BufMode.lineBuffered 42).cycles (k + 1) := fun k => Nat.lt_succ_self k
  have hnowrap : ∀ k, k ≤ (CsrCycles.main (proxyKernel BufMode.lineBuffered 42) 1001
        (boot zeroRegs zeroMem)).state.time →
      (proxyKernel BufMode.lineBuffered 42).cycles k / 2 ^ 64
        = (proxyKernel BufMode.lineBuffered 42).cycles 0 / 2 ^ 64 := by
    intro k hk
    rw [CsrCycles.csr_main_run _ _ _ (le_refl 1001)] at hk
    simp only [Res.state, printfState_time, boot] at hk
    show k / 2 ^ 64 = 0 / 2 ^ 64
    omega
  ⟨le_refl 1001, hinc, hnowrap,
    cycle_probe_measures_elapsed (proxyKernel BufMode.lineBuffered 42) 1001
      zeroRegs zeroMem (le_refl 1001) hinc hnowrap⟩

/-! ## `ctx_switch.c` -/

theorem CtxSwitch.rdcycle_eq (env : Env) (s : State) :
    CtxSwitch.rdcycle env s = Res.ok (env.cycles s.time % 2 ^ 64) (CtxSwitch.afterRead env s) :=
  rfl

theorem CtxSwitch.my_getpid_resume (env : Env) (s : State) (v : Nat) (w : World)
    (h : env.trap { a0 := s.regs.a0, a1 := s.regs.a1, a2 := s.regs.a2, a7 := 172 } s.mem s.world
      = Trap.resume v w) :
    CtxSwitch.my_getpid env s = Res.ok (toLong v) (CtxSwitch.afterTrap s v w) := by
  rw [CtxSwitch.my_getpid_eq, run_bind, ecall_resume env (CtxSwitch.atTrap s) v w h]
  simp only [toLong_mod, CtxSwitch.afterTrap, CtxSwitch.atTrap]

/-- When both traps return, `main` of `ctx_switch.c` reads the counter after
the first and after the second, prints two lines and returns 0. -/
theorem CtxSwitch.ctx_main_run (env : Env) (s : State) (v1 v2 : Nat) (w1 w2 : World)
    (h1 : env.trap { a0 := s.regs.a0, a1 := s.regs.a1, a2 := s.regs.a2, a7 := 172 } s.mem s.world
      = Trap.resume v1 w1)
    (h2 : env.trap { a0 := v1 % 2 ^ 64, a1 := s.regs.a1, a2 := s.regs.a2, a7 := 172 } s.mem w1
      = Trap.resume v2 w2) :
    CtxSwitch.main env s = Res.ok 0
      (printfState env ("Trap + return cycles: ".toList
          ++ fmtU (sub64 (env.cycles (s.time + 5) % 2 ^ 64) (env.cycles (s.time + 2) % 2 ^ 64))
          ++ "\n".toList)
        (printfState env ("PID: ".toList ++ fmtD (toLong v2) ++ "\n".toList)
          (CtxSwitch.afterRead env
            (CtxSwitch.afterTrap (CtxSwitch.afterRead env (CtxSwitch.afterTrap s v1 w1)) v2 w2)))) := by
  have hg1 := CtxSwitch.my_getpid_resume env s v1 w1 h1
  have hg2 := CtxSwitch.my_getpid_resume env
    (CtxSwitch.afterRead env (CtxSwitch.afterTrap s v1 w1)) v2 w2 h2
  have ht1 : (CtxSwitch.afterTrap s v1 w1).time = s.time + 2 := rfl
  have ht2 : (CtxSwitch.afterTrap (CtxSwitch.afterRead env (CtxSwitch.afterTrap s v1 w1))
      v2 w2).time = s.time + 5 := rfl
  simp only [CtxSwitch.main, run_bind, hg1, CtxSwitch.rdcycle_eq, hg2, printf, run_pure, ht1, ht2]

/-- C6: when the get-process-id service returns, every run of `main` of
`ctx_switch.c` does, in this order and nothing else: the warm-up `ecall` with
`a7 = 172`, a counter read `start`, the timed `ecall` with `a7 = 172`, a counter
read `end`; then it prints as PID the value the environment left in `a0` at the
second trap, whatever that value is, prints `end - start` (as `uint64_t`) and
returns 0. -/
theorem ctx_switch_times_second_getpid (env : Env) (regs : Regs) (mem : Nat → Char)
    (hret : ∀ r m w, r.a7 = 172 → ∃ v w1, env.trap r m w = Trap.resume v w1) :
    ∃ v1 w1 v2 w2 start end_ sEnd,
      env.trap { a0 := regs.a0, a1 := regs.a1, a2 := regs.a2, a7 := 172 } mem { stdout := [] }
          = Trap.resume v1 w1
      ∧ env.trap { a0 := v1 % 2 ^ 64, a1 := regs.a1, a2 := regs.a2, a7 := 172 } mem w1
          = Trap.resume v2 w2
      ∧ start = env.cycles 2 % 2 ^ 64 ∧ end_ = env.cycles 5 % 2 ^ 64
      ∧ CtxSwitch.main env (boot regs mem) = Res.ok 0 sEnd
      ∧ sEnd.trace = [Event.ecall { a0 := regs.a0, a1 := regs.a1, a2 := regs.a2, a7 := 172 },
          Event.rdcycle start,
          Event.ecall { a0 := v1 % 2 ^ 64, a1 := regs.a1, a2 := regs.a2, a7 := 172 },
          Event.rdcycle end_,
          Event.printf ("PID: ".toList ++ fmtD (toLong v2) ++ "\n".toList),
          Event.printf ("Trap + return cycles: ".toList ++ fmtU (sub64 end_ start)
            ++ "\n".toList)]
      ∧ (start ≤ end_ → sub64 end_ start = end_ - start)
      ∧ (finish (CtxSwitch.main env (boot regs mem))).term = Termination.normal 0 := by
  obtain ⟨v1, w1, h1⟩ :=
    hret { a0 := regs.a0, a1 := regs.a1, a2 := regs.a2, a7 := 172 } mem { stdout := [] } rfl
  obtain ⟨v2, w2, h2⟩ :=
    hret { a0 := v1 % 2 ^ 64, a1 := regs.a1, a2 := regs.a2, a7 := 172 } mem w1 rfl
  have hmain := CtxSwitch.ctx_main_run env (boot regs mem) v1 v2 w1 w2 h1 h2
  have hm5 := Nat.mod_lt (env.cycles 5) (show 0 < 2 ^ 64 by norm_num)
  have hb2 : (boot regs mem).time + 2 = 2 := by simp only [boot, Nat.zero_add]
  have hb5 : (boot regs mem).time + 5 = 5 := by simp only [boot, Nat.zero_add]
  rw [hb2, hb5] at hmain
  refine ⟨v1, w1, v2, w2, env.cycles 2 % 2 ^ 64, env.cycles 5 % 2 ^ 64, _, h1, h2, rfl, rfl,
    hmain, ?_, fun hle => sub64_of_le _ _ hm5 hle, ?_⟩
  · simp only [printfState_trace, CtxSwitch.afterRead, CtxSwitch.afterTrap, tick, boot,
      List.nil_append, List.cons_append, List.append_assoc, Nat.zero_add]
  · rw [hmain]; rfl

theorem proxyKernel_getpid (mode : BufMode) (pid : Nat) (r : Regs) (m : Nat → Char) (w : World)
    (h : r.a7 = 172) : ∃ v w1, (proxyKernel mode pid).trap r m w = Trap.resume v w1 :=
  ⟨pid, w, by simp [proxyKernel, h]⟩

/-- Instance of C6 at the proxy kernel with process id 42. -/
theorem ctx_switch_times_second_getpid_witness :
    (∀ r m w, r.a7 = 172 →
        ∃ v w1, (proxyKernel BufMode.lineBuffered 42).trap r m w = Trap.resume v w1)
    ∧ (∃ v1 w1 v2 w2 start end_ sEnd,
      (proxyKernel BufMode.lineBuffered 42).trap { a0 := zeroRegs.a0, a1 := zeroRegs.a1, a2 := zeroRegs.a2, a7 := 172 } zeroMem { stdout := [] }
          = Trap.resume v1 w1
      ∧ (proxyKernel BufMode.lineBuffered 42).trap { a0 := v1 % 2 ^ 64, a1 := zeroRegs.a1, a2 := zeroRegs.a2, a7 := 172 } zeroMem w1
          = Trap.resume v2 w2
      ∧ start = (proxyKernel BufMode.lineBuffered 42).cycles 2 % 2 ^ 64 ∧ end_ = (proxyKernel BufMode.lineBuffered 42).cycles 5 % 2 ^ 64
      ∧ CtxSwitch.main (proxyKernel BufMode.lineBuffered 42) (boot zeroRegs zeroMem) = Res.ok 0 sEnd
      ∧ sEnd.trace = [Event.ecall { a0 := zeroRegs.a0, a1 := zeroRegs.a1, a2 := zeroRegs.a2, a7 := 172 },
          Event.rdcycle start,
          Event.ecall { a0 := v1 % 2 ^ 64, a1 := zeroRegs.a1, a2 := zeroRegs.a2, a7 := 172 },
          Event.rdcycle end_,
          Event.printf ("PID: ".toList ++ fmtD (toLong v2) ++ "\n".toList),
          Event.printf ("Trap + return cycles: ".toList ++ fmtU (sub64 end_ start)
            ++ "\n".toList)]
      ∧ (start ≤ end_ → sub64 end_ start = end_ - start)
      ∧ (finish (CtxSwitch.main (proxyKernel BufMode.lineBuffered 42) (boot zeroRegs zeroMem))).term = Termination.normal 0) :=
  ⟨proxyKernel_getpid BufMode.lineBuffered 42,
    ctx_switch_times_second_getpid (proxyKernel BufMode.lineBuffered 42) zeroRegs zeroMem
      (proxyKernel_getpid BufMode.lineBuffered 42)⟩

/-! ## Elapsed cycles as a difference of `uint64_t` -/

/-- C8: the elapsed value both programs report is `end - start` on `uint64_t`,
that is `(end - start) mod 2^64`: for every `start` and every true elapsed
count `d < 2^64`, with `end = (start + d) mod 2^64`, it is exactly `d`, also
when `end < start`. In `csr_cycles.c` (`workCount`) the two readings are the
counter at program points 0 and 2002, in `ctx_switch.c` (`cycles`) at program
points 2 and 5, and the line each program prints carries `d` whenever the
counter advanced by `d` between them. -/
theorem elapsed_is_modular_difference (env : Env) (fuel : Nat) (regs : Regs) (mem : Nat → Char)
    (start d : Nat) (hfuel : 1001 ≤ fuel)
    (hret : ∀ r m w, r.a7 = 172 → ∃ v w1, env.trap r m w = Trap.resume v w1)
    (hstart : start < 2 ^ 64) (hd : d < 2 ^ 64) :
    sub64 ((start + d) % 2 ^ 64) start = d
    ∧ ((sub64 ((start + d) % 2 ^ 64) start : Int)
        = ((((start + d) % 2 ^ 64 : Nat) : Int) - (start : Int)) % (2 ^ 64 : Int))
    ∧ ((start + d) % 2 ^ 64 < start → sub64 ((start + d) % 2 ^ 64) start = d)
    ∧ (∃ sEnd, CsrCycles.main env fuel (boot regs mem) = Res.ok 0 sEnd
        ∧ Event.printf ("Elapsed: ".toList
            ++ fmtU (sub64 (env.cycles 2002 % 2 ^ 64) (env.cycles 0 % 2 ^ 64)) ++ "\n".toList)
          ∈ sEnd.trace
        ∧ (env.cycles 2002 = env.cycles 0 + d →
            Event.printf ("Elapsed: ".toList ++ fmtU d ++ "\n".toList) ∈ sEnd.trace))
    ∧ (∃ sEnd, CtxSwitch.main env (boot regs mem) = Res.ok 0 sEnd
        ∧ Event.printf ("Trap + return cycles: ".toList
            ++ fmtU (sub64 (env.cycles 5 % 2 ^ 64) (env.cycles 2 % 2 ^ 64)) ++ "\n".toList)
          ∈ sEnd.trace
        ∧ (env.cycles 5 = env.cycles 2 + d →
            Event.printf ("Trap + return cycles: ".toList ++ fmtU d ++ "\n".toList)
              ∈ sEnd.trace)) := by
  have hs : sub64 ((start + d) % 2 ^ 64) start = d := by
    have h := sub64_add start d hd
    rwa [Nat.mod_eq_of_lt hstart] at h
  have hcsr := CsrCycles.csr_main_run env fuel (boot regs mem) hfuel
  have hb : (boot regs mem).time + 2002 = 2002 := by simp only [boot, Nat.zero_add]
  have hb0 : (boot regs mem).time = 0 := rfl
  rw [hb, hb0] at hcsr
  obtain ⟨v1, w1, h1⟩ :=
    hret { a0 := regs.a0, a1 := regs.a1, a2 := regs.a2, a7 := 172 } mem { stdout := [] } rfl
  obtain ⟨v2, w2, h2⟩ :=
    hret { a0 := v1 % 2 ^ 64, a1 := regs.a1, a2 := regs.a2, a7 := 172 } mem w1 rfl
  have hctx := CtxSwitch.ctx_main_run env (boot regs mem) v1 v2 w1 w2 h1 h2
  have hb2 : (boot regs mem).time + 2 = 2 := by simp only [boot, Nat.zero_add]
  have hb5 : (boot regs mem).time + 5 = 5 := by simp only [boot, Nat.zero_add]
  rw [hb2, hb5] at hctx
  refine ⟨hs, ?_, fun _ => hs, ⟨_, hcsr, ?_, ?_⟩, ⟨_, hctx, ?_, ?_⟩⟩
  · rw [hs]
    have hm := Nat.mod_lt (start + d) (show 0 < 2 ^ 64 by norm_num)
    have hdm := Nat.div_add_mod (start + d) (2 ^ 64)
    omega
  · simp only [printfState_trace, List.mem_append, List.mem_singleton, or_true]
  · intro h
    rw [h, sub64_add _ _ hd]
    simp only [printfState_trace, List.mem_append, List.mem_singleton, or_true]
  · simp only [printfState_trace, List.mem_append, List.mem_singleton, or_true]
  · intro h
    rw [h, sub64_add _ _ hd]
    simp only [printfState_trace, List.mem_append, List.mem_singleton, or_true]

/-- Instance of C8 where the counter wraps: `start = 2^64 - 1`, `d = 5`. -/
theorem elapsed_is_modular_difference_witness :
    1001 ≤ 1001
    ∧ (∀ r m w, r.a7 = 172 →
        ∃ v w1, (proxyKernel BufMode.lineBuffered 42).trap r m w = Trap.resume v w1)
    ∧ 18446744073709551615 < 2 ^ 64 ∧ 5 < 2 ^ 64
    ∧ (sub64 ((18446744073709551615 + 5) % 2 ^ 64) 18446744073709551615 = 5
    ∧ ((sub64 ((18446744073709551615 + 5) % 2 ^ 64) 18446744073709551615 : Int)
        = ((((18446744073709551615 + 5) % 2 ^ 64 : Nat) : Int) - (18446744073709551615 : Int)) % (2 ^ 64 : Int))
    ∧ ((18446744073709551615 + 5) % 2 ^ 64 < 18446744073709551615 → sub64 ((18446744073709551615 + 5) % 2 ^ 64) 18446744073709551615 = 5)
    ∧ (∃ sEnd, CsrCycles.main (proxyKernel BufMode.lineBuffered 42) 1001 (boot zeroRegs zeroMem) = Res.ok 0 sEnd
        ∧ Event.printf ("Elapsed: ".toList
            ++ fmtU (sub64 ((proxyKernel BufMode.lineBuffered 42).cycles 2002 % 2 ^ 64) ((proxyKernel BufMode.lineBuffered 42).cycles 0 % 2 ^ 64)) ++ "\n".toList)
          ∈ sEnd.trace
        ∧ ((proxyKernel BufMode.lineBuffered 42).cycles 2002 = (proxyKernel BufMode.lineBuffered 42).cycles 0 + 5 →
            Event.printf ("Elapsed: ".toList ++ fmtU 5 ++ "\n".toList) ∈ sEnd.trace))
    ∧ (∃ sEnd, CtxSwitch.main (proxyKernel BufMode.lineBuffered 42) (boot zeroRegs zeroMem) = Res.ok 0 sEnd
        ∧ Event.printf ("Trap + return cycles: ".toList
            ++ fmtU (sub64 ((proxyKernel BufMode.lineBuffered 42).cycles 5 % 2 ^ 64) ((proxyKernel BufMode.lineBuffered 42).cycles 2 % 2 ^ 64)) ++ "\n".toList)
          ∈ sEnd.trace
        ∧ ((proxyKernel BufMode.lineBuffered 42).cycles 5 = (proxyKernel BufMode.lineBuffered 42).cycles 2 + 5 →
            Event.printf ("Trap + return cycles: ".toList ++ fmtU 5 ++ "\n".toList)
              ∈ sEnd.trace))) :=
  ⟨le_refl 1001, proxyKernel_getpid BufMode.lineBuffered 42, by norm_num, by norm_num,
    elapsed_is_modular_difference (proxyKernel BufMode.lineBuffered 42) 1001 zeroRegs zeroMem
      18446744073709551615 5 (le_refl 1001) (proxyKernel_getpid BufMode.lineBuffered 42)
      (by norm_num) (by norm_num)⟩

/-! ## Which scenario each program is -/

theorem busyLoop_trace : ∀ (fuel : Nat) (i : Int) (n : Nat) (s : State),
    (busyLoop fuel i n s).state.trace = s.trace := by
  intro fuel
  induction fuel with
  | zero => intro i n s; rfl
  | succ f ih =>
    intro i n s
    by_cases h : i < 1000
    · simp only [busyLoop, h, if_true, ih, tick]
    · simp only [busyLoop, h, if_false, Res.state, tick]

theorem CsrCycles.csr_main_interactions (env : Env) (fuel : Nat) (regs : Regs) (mem : Nat → Char)
    (hfuel : 1001 ≤ fuel) :
    interactions (CsrCycles.main env fuel (boot regs mem)).state.trace
      = [Event.rdcycle (env.cycles 0 % 2 ^ 64), Event.rdcycle (env.cycles 2002 % 2 ^ 64)] := by
  rw [CsrCycles.csr_main_run env fuel _ hfuel]
  simp [Res.state, printfState_trace, interactions, Event.isInteraction, boot]

/-- In a context that may read `mstatus`, `main` of `mstatus.c` up to its loop. -/
theorem Mstatus.main_some (env : Env) (fuel : Nat) (s : State) (v : Nat)
    (hm : env.mstatus = some v) :
    Mstatus.main env fuel s
      = (busyLoop fuel 0 0 >>= fun _ s2 => Res.ok 0
          (printfState env ("End Status: ".toList ++ fmtU (v % 2 ^ 64) ++ "\n".toList)
            (tick { s2 with trace := s2.trace ++ [Event.csrr_mstatus (some v)] })))
        (printfState env ("Start Status: ".toList ++ fmtU (v % 2 ^ 64) ++ "\n".toList)
          (tick { s with trace := s.trace ++ [Event.csrr_mstatus (some v)] })) := by
  have hread : ∀ t, Mstatus.read_mstatus env t
      = Res.ok (v % 2 ^ 64) (tick { t with trace := t.trace ++ [Event.csrr_mstatus (some v)] }) := by
    intro t
    simp only [Mstatus.read_mstatus, Insn.csrr_mstatus, hm]
  have hmain : Mstatus.main env fuel s
      = (Mstatus.read_mstatus env >>= fun startStts =>
          (printf env ("Start Status: ".toList ++ fmtU startStts ++ "\n".toList) >>= fun _ =>
            (busyLoop fuel 0 0 >>= fun _ =>
              (Mstatus.read_mstatus env >>= fun endStts =>
                (printf env ("End Status: ".toList ++ fmtU endStts ++ "\n".toList) >>= fun _ =>
                  (pure 0 : Run Int)))))) s := rfl
  rw [hmain, run_bind, hread]
  simp only [printf_bind]
  rw [run_bind, run_bind]
  cases busyLoop fuel 0 0
    (printfState env ("Start Status: ".toList ++ fmtU (v % 2 ^ 64) ++ "\n".toList)
      (tick { s with trace := s.trace ++ [Event.csrr_mstatus (some v)] })) with
  | ok a s2 =>
    simp only [run_bind, hread, printf, run_pure]
  | halt h s2 => rfl

theorem Mstatus.mstatus_main_interactions (env : Env) (fuel : Nat) (regs : Regs) (mem : Nat → Char) :
    interactions (Mstatus.main env fuel (boot regs mem)).state.trace
        = [Event.csrr_mstatus env.mstatus]
    ∨ interactions (Mstatus.main env fuel (boot regs mem)).state.trace
        = [Event.csrr_mstatus env.mstatus, Event.csrr_mstatus env.mstatus] := by
  cases hm : env.mstatus with
  | none =>
    left
    simp [Mstatus.main, Mstatus.read_mstatus, run_bind, Insn.csrr_mstatus, hm, Res.state, tick,
      interactions, Event.isInteraction, boot]
  | some v =>
    have hloop := busyLoop_trace fuel 0 0
      (printfState env ("Start Status: ".toList ++ fmtU (v % 2 ^ 64) ++ "\n".toList)
        (tick { boot regs mem with
          trace := (boot regs mem).trace ++ [Event.csrr_mstatus (some v)] }))
    rw [Mstatus.main_some env fuel _ v hm, run_bind]
    cases hb : busyLoop fuel 0 0
      (printfState env ("Start Status: ".toList ++ fmtU (v % 2 ^ 64) ++ "\n".toList)
        (tick { boot regs mem with
          trace := (boot regs mem).trace ++ [Event.csrr_mstatus (some v)] }))
      with
    | ok a s2 =>
      right
      rw [hb] at hloop
      simp only [Res.state, printfState_trace, tick] at hloop
      simp [Res.state, printfState_trace, hloop, tick, interactions, Event.isInteraction, boot]
    | halt h s2 =>
      left
      rw [hb] at hloop
      simp only [Res.state, printfState_trace, tick] at hloop
      simp [Res.state, hloop, interactions, Event.isInteraction, boot]

theorem EcallExit.exit_main_interactions (env : Env) (regs : Regs) (mem : Nat → Char) :
    interactions (EcallExit.main env (boot regs mem)).state.trace
      = [Event.ecall { a0 := 0, a1 := regs.a1, a2 := regs.a2, a7 := 93 }] := by
  have hmain : EcallExit.main env (boot regs mem)
      = (EcallExit.my_exit env 0 >>= fun _ =>
          (printf env "Never reaches here\n".toList >>= fun _ => (pure 0 : Run Int)))
          (printfState env "About to trigger ecall...\n".toList (boot regs mem)) := rfl
  have hz : toWord 0 = 0 := by decide
  have ht := ecall_trace env
    (EcallExit.atTrap 0 (printfState env "About to trigger ecall...\n".toList (boot regs mem)))
  rw [hmain, run_bind, EcallExit.my_exit_eq]
  cases hr : Insn.ecall env
    (EcallExit.atTrap 0 (printfState env "About to trigger ecall...\n".toList (boot regs mem)))
    with
  | ok a s1 =>
    rw [hr] at ht
    simp only [Res.state, EcallExit.atTrap, printfState_trace, printfState_regs, hz, boot] at ht
    simp [run_bind, printf, run_pure, Res.state, printfState_trace, ht, interactions,
      Event.isInteraction]
  | halt h s1 =>
    rw [hr] at ht
    simp only [Res.state, EcallExit.atTrap, printfState_trace, printfState_regs, hz, boot] at ht
    simp [Res.state, ht, interactions, Event.isInteraction]

theorem EcallWrite.write_main_interactions (env : Env) (regs : Regs) (mem : Nat → Char)
    (msgAddr : Nat) :
    interactions (EcallWrite.main env msgAddr (boot regs mem)).state.trace
      = [Event.ecall { a0 := 1, a1 := msgAddr % 2 ^ 64, a2 := 22, a7 := 64 }] := by
  have hmain : EcallWrite.main env msgAddr (boot regs mem)
      = (EcallWrite.my_write env 1 msgAddr (EcallWrite.msg.length - 1) >>= fun _ =>
          (printf env "That's it RISC-V.\n".toList >>= fun _ => (pure 0 : Run Int)))
          (storeBytes msgAddr EcallWrite.msg
            (printfState env "About to trigger ecall...\n".toList (boot regs mem))).state := rfl
  have ht := ecall_trace env (EcallWrite.beforeTrap env msgAddr (boot regs mem))
  rw [EcallWrite.beforeTrap_regs_mod] at ht
  have htr : (EcallWrite.beforeTrap env msgAddr (boot regs mem)).trace
      = [Event.printf "About to trigger ecall...\n".toList] := by
    simp only [EcallWrite.beforeTrap, EcallWrite.atTrap, storeBytes, Res.state, tick,
      printfState_trace, boot, List.nil_append]
  rw [htr] at ht
  rw [hmain, run_bind, EcallWrite.my_write_eq]
  have hbt : EcallWrite.atTrap 1 msgAddr (EcallWrite.msg.length - 1)
      (storeBytes msgAddr EcallWrite.msg
        (printfState env "About to trigger ecall...\n".toList (boot regs mem))).state
      = EcallWrite.beforeTrap env msgAddr (boot regs mem) := rfl
  rw [hbt]
  cases hr : Insn.ecall env (EcallWrite.beforeTrap env msgAddr (boot regs mem)) with
  | ok a s1 =>
    rw [hr] at ht
    simp only [Res.state] at ht
    simp [run_bind, printf, run_pure, Res.state, printfState_trace, ht, interactions,
      Event.isInteraction]
  | halt h s1 =>
    rw [hr] at ht
    simp only [Res.state] at ht
    simp [Res.state, ht, interactions, Event.isInteraction]

theorem CtxSwitch.ctx_main_interactions (env : Env) (regs : Regs) (mem : Nat → Char)
    (hret : ∀ r m w, r.a7 = 172 → ∃ v w1, env.trap r m w = Trap.resume v w1) :
    ∃ v1, interactions (CtxSwitch.main env (boot regs mem)).state.trace
      = [Event.ecall { a0 := regs.a0, a1 := regs.a1, a2 := regs.a2, a7 := 172 },
          Event.rdcycle (env.cycles 2 % 2 ^ 64),
          Event.ecall { a0 := v1 % 2 ^ 64, a1 := regs.a1, a2 := regs.a2, a7 := 172 },
          Event.rdcycle (env.cycles 5 % 2 ^ 64)] := by
  obtain ⟨v1, w1, h1⟩ :=
    hret { a0 := regs.a0, a1 := regs.a1, a2 := regs.a2, a7 := 172 } mem { stdout := [] } rfl
  obtain ⟨v2, w2, h2⟩ :=
    hret { a0 := v1 % 2 ^ 64, a1 := regs.a1, a2 := regs.a2, a7 := 172 } mem w1 rfl
  refine ⟨v1, ?_⟩
  rw [CtxSwitch.ctx_main_run env (boot regs mem) v1 v2 w1 w2 h1 h2]
  simp [Res.state, printfState_trace, CtxSwitch.afterRead, CtxSwitch.afterTrap, tick, boot,
    interactions, Event.isInteraction]

theorem CustomTraps.main_trace (env : Env) (fuel : Nat) (s : State) :
    (CustomTraps.main env fuel s).state.trace = s.trace ++ [Event.ecall s.regs] := by
  have hmain : CustomTraps.main env fuel s
      = (Insn.ecall env >>= fun _ =>
          (CustomTraps._exit 0 fuel >>= fun _ => (pure 0 : Run Int))) s := rfl
  rw [hmain]
  cases ht : env.trap s.regs s.mem s.world <;>
    simp [run_bind, Insn.ecall, ht, CustomTraps.exit_spins, Res.state, tick]

/-- C7, as stated, fails at `03. Custom Traps/main.c`: started with all
registers zero under the proxy kernel, its `main` traps once with `a7 = 0`, and
that sequence of interactions is none of the five scenarios. -/
theorem custom_trap_fits_no_scenario :
    interactions (CustomTraps.main (proxyKernel BufMode.lineBuffered 42) 10
        (boot zeroRegs zeroMem)).state.trace
      = [Event.ecall { a0 := 0, a1 := 0, a2 := 0, a7 := 0 }]
    ∧ ¬ ∃ sc : Scenario, sc.fits (interactions (CustomTraps.main
          (proxyKernel BufMode.lineBuffered 42) 10 (boot zeroRegs zeroMem)).state.trace) = true := by
  have h : interactions (CustomTraps.main (proxyKernel BufMode.lineBuffered 42) 10
        (boot zeroRegs zeroMem)).state.trace
      = [Event.ecall { a0 := 0, a1 := 0, a2 := 0, a7 := 0 }] := by
    rw [CustomTraps.main_trace]
    simp [interactions, Event.isInteraction, boot, zeroRegs]
  refine ⟨h, ?_⟩
  rintro ⟨sc, hsc⟩
  rw [h] at hsc
  cases sc <;> simp [Scenario.fits, Event.isGetpid] at hsc

/-- C7, amended: the interactions of `main` of `csr_cycles.c`, `mstatus.c`,
`ecall_exit.c`, `ecall_write.c` and `ctx_switch.c` are those of exactly one of
the five scenarios each, in this order (given fuel for the busy loop and a
get-process-id service that returns); `main` of `03. Custom Traps/main.c` traps
once with the registers it was started with, which is none of the five
scenarios unless `a7` happened to hold 93 or 64. -/
theorem five_programs_one_scenario_each (env : Env) (fuel : Nat) (regs : Regs)
    (mem : Nat → Char) (msgAddr : Nat) (hfuel : 1001 ≤ fuel)
    (hret : ∀ r m w, r.a7 = 172 → ∃ v w1, env.trap r m w = Trap.resume v w1) :
    (∀ sc : Scenario,
        sc.fits (interactions (CsrCycles.main env fuel (boot regs mem)).state.trace) = true
          ↔ sc = Scenario.cycleCounterRead)
    ∧ (∀ sc : Scenario,
        sc.fits (interactions (Mstatus.main env fuel (boot regs mem)).state.trace) = true
          ↔ sc = Scenario.privilegedRegisterRead)
    ∧ (∀ sc : Scenario,
        sc.fits (interactions (EcallExit.main env (boot regs mem)).state.trace) = true
          ↔ sc = Scenario.trapExit)
    ∧ (∀ sc : Scenario,
        sc.fits (interactions (EcallWrite.main env msgAddr (boot regs mem)).state.trace) = true
          ↔ sc = Scenario.trapWrite)
    ∧ (∀ sc : Scenario,
        sc.fits (interactions (CtxSwitch.main env (boot regs mem)).state.trace) = true
          ↔ sc = Scenario.roundTripTiming)
    ∧ interactions (CustomTraps.main env fuel (boot regs mem)).state.trace = [Event.ecall regs]
    ∧ (regs.a7 ≠ 93 → regs.a7 ≠ 64 → ∀ sc : Scenario,
        sc.fits (interactions (CustomTraps.main env fuel (boot regs mem)).state.trace) = false) := by
  have hcustom : interactions (CustomTraps.main env fuel (boot regs mem)).state.trace
      = [Event.ecall regs] := by
    rw [CustomTraps.main_trace]
    simp [interactions, Event.isInteraction, boot]
  refine ⟨?_, ?_, ?_, ?_, ?_, hcustom, ?_⟩
  · intro sc
    rw [CsrCycles.csr_main_interactions env fuel regs mem hfuel]
    cases sc <;> simp [Scenario.fits, Event.isGetpid]
  · intro sc
    rcases Mstatus.mstatus_main_interactions env fuel regs mem with h | h <;> rw [h] <;>
      cases sc <;> simp [Scenario.fits, Event.isGetpid, Event.isMstatusRead]
  · intro sc
    rw [EcallExit.exit_main_interactions]
    cases sc <;> simp [Scenario.fits, Event.isGetpid]
  · intro sc
    rw [EcallWrite.write_main_interactions]
    cases sc <;> simp [Scenario.fits, Event.isGetpid]
  · intro sc
    obtain ⟨v1, h⟩ := CtxSwitch.ctx_main_interactions env regs mem hret
    rw [h]
    cases sc <;> simp [Scenario.fits, Event.isGetpid]
  · intro h93 h64 sc
    rw [hcustom]
    by_cases h172 : regs.a7 = 172 <;>
      cases sc <;> simp [Scenario.fits, Event.isGetpid, List.dropWhile, h93, h64, h172]

/-- Instance of amended C7 at the proxy kernel. -/
theorem five_programs_one_scenario_each_witness :
    1001 ≤ 1001
    ∧ (∀ r m w, r.a7 = 172 →
        ∃ v w1, (proxyKernel BufMode.lineBuffered 42).trap r m w = Trap.resume v w1)
    ∧ (∀ sc : Scenario,
        sc.fits (interactions (CtxSwitch.main (proxyKernel BufMode.lineBuffered 42)
          (boot zeroRegs zeroMem)).state.trace) = true ↔ sc = Scenario.roundTripTiming)
    ∧ (∀ sc : Scenario,
        sc.fits (interactions (CsrCycles.main (proxyKernel BufMode.lineBuffered 42) 1001
          (boot zeroRegs zeroMem)).state.trace) = true ↔ sc = Scenario.cycleCounterRead)
    ∧ zeroRegs.a7 ≠ 93 ∧ zeroRegs.a7 ≠ 64
    ∧ (∀ sc : Scenario,
        sc.fits (interactions (CustomTraps.main (proxyKernel BufMode.lineBuffered 42) 1001
          (boot zeroRegs zeroMem)).state.trace) = false) :=
  have h := five_programs_one_scenario_each (proxyKernel BufMode.lineBuffered 42) 1001
    zeroRegs zeroMem 4096 (le_refl 1001) (proxyKernel_getpid BufMode.lineBuffered 42)
  ⟨le_refl 1001, proxyKernel_getpid BufMode.lineBuffered 42, h.2.2.2.2.1, h.1,
    by decide, by decide, h.2.2.2.2.2.2 (by decide) (by decide)⟩

end RiscvDemos
